import Mathlib

/-!
Verification development for the IKE inventory-count backend.

This file gives a shallow embedding, in Lean 4, of the count lifecycle and
variance-reconciliation engine of the repository:

  * `backend/app/api/count.py` — `add_line`, `update_line`, `delete_line`,
    `submit_session`, `get_variance`;
  * `backend/app/services/sales_sync.py` — `SalesSyncService`;
  * the row shapes of `backend/app/models/inventory_count.py` and
    `backend/app/models/product.py`.

Database tables are embedded as Lean lists of row structures; SQL queries
become filters/folds over those lists; Python dict comprehensions become
association lists built with last-entry-wins insertion; Python's stable
`list.sort` becomes a stable insertion sort.  Timestamps are embedded as a
day/time-of-day pair ordered lexicographically, which is all the code ever
uses of `datetime` values (comparison, `min`, `max`, and the `date()`
extraction used by the sync's force-delete).
-/

namespace IKE

/-- Embedding of a Python `datetime`: a day number and a time-of-day number,
compared lexicographically. `date(dt)` is the `day` field. -/
structure DateTime where
  day : Int
  tod : Int
deriving DecidableEq, Repr

/-- Strict `<` on datetimes (lexicographic), as Python compares `datetime`s. -/
def dtLt (a b : DateTime) : Bool :=
  a.day < b.day || (a.day == b.day && a.tod < b.tod)

/-- Non-strict `<=` on datetimes (lexicographic). -/
def dtLe (a b : DateTime) : Bool :=
  a.day < b.day || (a.day == b.day && a.tod ≤ b.tod)

theorem dtLe_refl (a : DateTime) : dtLe a a = true := by
  simp [dtLe]

theorem dtLe_total (a b : DateTime) : dtLe a b = true ∨ dtLe b a = true := by
  simp only [dtLe, Bool.or_eq_true, Bool.and_eq_true, beq_iff_eq, decide_eq_true_eq]
  omega

theorem dtLe_antisymm {a b : DateTime} (h1 : dtLe a b = true) (h2 : dtLe b a = true) :
    a = b := by
  simp only [dtLe, Bool.or_eq_true, Bool.and_eq_true, beq_iff_eq, decide_eq_true_eq] at h1 h2
  cases a; cases b
  simp only [DateTime.mk.injEq]
  simp only at h1 h2
  omega

theorem dtLe_trans {a b c : DateTime} (h1 : dtLe a b = true) (h2 : dtLe b c = true) :
    dtLe a c = true := by
  simp only [dtLe, Bool.or_eq_true, Bool.and_eq_true, beq_iff_eq, decide_eq_true_eq] at *
  omega

theorem dtLt_iff_not_le {a b : DateTime} : dtLt a b = true ↔ ¬ dtLe b a = true := by
  simp only [dtLt, dtLe, Bool.or_eq_true, Bool.and_eq_true, beq_iff_eq, decide_eq_true_eq]
  omega

/-- Python `min` over a nonempty sequence of datetimes: fold keeping the
current value unless a strictly smaller one appears. -/
def dtFoldMin (a : DateTime) (l : List DateTime) : DateTime :=
  l.foldl (fun acc x => if dtLt x acc then x else acc) a

/-- Python `max` over a nonempty sequence of datetimes. -/
def dtFoldMax (a : DateTime) (l : List DateTime) : DateTime :=
  l.foldl (fun acc x => if dtLt acc x then x else acc) a

theorem dtFoldMin_mem (a : DateTime) (l : List DateTime) :
    dtFoldMin a l = a ∨ dtFoldMin a l ∈ l := by
  induction l generalizing a with
  | nil => exact Or.inl rfl
  | cons x xs ih =>
    simp only [dtFoldMin, List.foldl_cons] at *
    by_cases h : dtLt x a = true
    · rw [if_pos h]
      rcases ih x with h1 | h1
      · exact Or.inr (by rw [h1]; exact List.mem_cons_self x xs)
      · exact Or.inr (List.mem_cons_of_mem x h1)
    · rw [if_neg h]
      rcases ih a with h1 | h1
      · exact Or.inl h1
      · exact Or.inr (List.mem_cons_of_mem x h1)

theorem dtFoldMin_le (a : DateTime) (l : List DateTime) :
    dtLe (dtFoldMin a l) a = true ∧ ∀ x ∈ l, dtLe (dtFoldMin a l) x = true := by
  induction l generalizing a with
  | nil => exact ⟨dtLe_refl a, by simp⟩
  | cons x xs ih =>
    simp only [dtFoldMin, List.foldl_cons] at *
    by_cases h : dtLt x a = true
    · rw [if_pos h]
      have hxa : dtLe x a = true := by
        rcases dtLe_total x a with h1 | h1
        · exact h1
        · exact absurd h1 (dtLt_iff_not_le.mp h)
      refine ⟨dtLe_trans (ih x).1 hxa, ?_⟩
      intro y hy
      rcases List.mem_cons.mp hy with heq | hy
      · rw [heq]; exact (ih x).1
      · exact (ih x).2 y hy
    · rw [if_neg h]
      have hax : dtLe a x = true := by
        rcases dtLe_total a x with h1 | h1
        · exact h1
        · by_cases heq : a = x
          · subst heq; exact dtLe_refl a
          · exfalso
            apply h
            rw [dtLt_iff_not_le]
            intro hle
            exact heq (dtLe_antisymm hle h1)
      refine ⟨(ih a).1, ?_⟩
      intro y hy
      rcases List.mem_cons.mp hy with heq | hy
      · rw [heq]; exact dtLe_trans (ih a).1 hax
      · exact (ih a).2 y hy

theorem dtFoldMax_mem (a : DateTime) (l : List DateTime) :
    dtFoldMax a l = a ∨ dtFoldMax a l ∈ l := by
  induction l generalizing a with
  | nil => exact Or.inl rfl
  | cons x xs ih =>
    simp only [dtFoldMax, List.foldl_cons] at *
    by_cases h : dtLt a x = true
    · rw [if_pos h]
      rcases ih x with h1 | h1
      · exact Or.inr (by simp [h1])
      · exact Or.inr (by simp [h1])
    · rw [if_neg h]
      rcases ih a with h1 | h1
      · exact Or.inl h1
      · exact Or.inr (by simp [h1])

theorem dtFoldMax_ge (a : DateTime) (l : List DateTime) :
    dtLe a (dtFoldMax a l) = true ∧ ∀ x ∈ l, dtLe x (dtFoldMax a l) = true := by
  induction l generalizing a with
  | nil => exact ⟨dtLe_refl a, by simp⟩
  | cons x xs ih =>
    simp only [dtFoldMax, List.foldl_cons] at *
    by_cases h : dtLt a x = true
    · rw [if_pos h]
      have hax : dtLe a x = true := by
        rcases dtLe_total a x with h1 | h1
        · exact h1
        · exact absurd h1 (dtLt_iff_not_le.mp h)
      refine ⟨dtLe_trans hax (ih x).1, ?_⟩
      intro y hy
      rcases List.mem_cons.mp hy with heq | hy
      · rw [heq]; exact (ih x).1
      · exact (ih x).2 y hy
    · rw [if_neg h]
      have hxa : dtLe x a = true := by
        rcases dtLe_total x a with h1 | h1
        · exact h1
        · by_cases heq : a = x
          · subst heq; exact dtLe_refl a
          · exfalso
            apply h
            rw [dtLt_iff_not_le]
            intro hle
            exact heq (dtLe_antisymm h1 hle)
      refine ⟨(ih a).1, ?_⟩
      intro y hy
      rcases List.mem_cons.mp hy with heq | hy
      · rw [heq]; exact dtLe_trans hxa (ih a).1
      · exact (ih a).2 y hy

/-! ### Stable sorting

Python's `list.sort` is stable.  We embed it as a stable insertion sort:
`lt a b = true` means `a` must come strictly before `b`; on ties the element
that came first in the input stays first. -/

/-- Insert `x` (a later element of the input) into the already-sorted `l`:
walk past every `y` that must come strictly before `x`, then place `x`
(before any tie, since `x` came later in the original list is false — `x`
is the element currently being inserted and all of `l` preceded it, so on a
tie the existing `y` keeps its place only when `lt y x`; otherwise `x` stops
here, which is exactly stable behaviour because `insertBy` is used foldr-style
on the input: every element of `l` came *after* `x` in the input). -/
def insertBy (lt : α → α → Bool) (x : α) : List α → List α
  | [] => [x]
  | y :: ys => if lt y x then y :: insertBy lt x ys else x :: y :: ys

/-- Stable sort by the strict precedence predicate `lt` (Python `list.sort`). -/
def stableSortBy (lt : α → α → Bool) : List α → List α
  | [] => []
  | x :: xs => insertBy lt x (stableSortBy lt xs)

theorem perm_insertBy (lt : α → α → Bool) (x : α) (l : List α) :
    (insertBy lt x l).Perm (x :: l) := by
  induction l with
  | nil => exact List.Perm.refl _
  | cons y ys ih =>
    simp only [insertBy]
    by_cases h : lt y x = true
    · rw [if_pos h]
      exact ((ih.cons y).trans (List.Perm.swap x y ys))
    · rw [if_neg h]

theorem perm_stableSortBy (lt : α → α → Bool) (l : List α) :
    (stableSortBy lt l).Perm l := by
  induction l with
  | nil => exact List.Perm.refl _
  | cons x xs ih =>
    exact (perm_insertBy lt x (stableSortBy lt xs)).trans (ih.cons x)

theorem mem_stableSortBy {lt : α → α → Bool} {a : α} {l : List α} :
    a ∈ stableSortBy lt l ↔ a ∈ l :=
  (perm_stableSortBy lt l).mem_iff

theorem length_stableSortBy (lt : α → α → Bool) (l : List α) :
    (stableSortBy lt l).length = l.length :=
  (perm_stableSortBy lt l).length_eq

/-- Core sortedness lemma for the stable insertion sort, parameterised by the
target ordering relation `R`.  `hstop`: when the walk stops (`lt y x` is
false) and `x` was after `y`-group in the input (`S x y` records the input
relation), `x` relates to `y`.  `hgo`: when the walk passes `y` (`lt y x`),
`y` relates to `x`.  `htrans`: `R` pushes through earlier elements. -/
theorem pairwise_insertBy {lt : α → α → Bool} {R S : α → α → Prop} {x : α} {l : List α}
    (hl : l.Pairwise R) (hS : ∀ y ∈ l, S x y)
    (hstop : ∀ y, S x y → lt y x = false → R x y)
    (hgo : ∀ y, lt y x = true → R y x)
    (htrans : ∀ y z, S x z → R y z → lt y x = false → R x z) :
    (insertBy lt x l).Pairwise R := by
  induction l with
  | nil => simp [insertBy]
  | cons y ys ih =>
    simp only [insertBy]
    rcases List.pairwise_cons.mp hl with ⟨hy, hys⟩
    by_cases h : lt y x = true
    · rw [if_pos h]
      refine List.pairwise_cons.mpr ⟨?_, ?_⟩
      · intro b hb
        have hb2 : b ∈ x :: ys := (perm_insertBy lt x ys).mem_iff.mp hb
        rcases List.mem_cons.mp hb2 with hbx | hby
        · rw [hbx]; exact hgo y h
        · exact hy b hby
      · exact ih hys (fun z hz => hS z (List.mem_cons_of_mem y hz))
    · rw [if_neg h]
      rw [Bool.not_eq_true] at h
      refine List.pairwise_cons.mpr ⟨?_, hl⟩
      intro b hb
      rcases List.mem_cons.mp hb with hb | hb
      · rw [hb]; exact hstop y (hS y (List.mem_cons_self y ys)) h
      · exact htrans y b (hS b (List.mem_cons_of_mem y hb)) (hy b hb) h

/-! ### Python dict and SQL aggregation helpers -/

/-- Python dict comprehension over a row list: later occurrences of a key
overwrite earlier ones.  Represented as an association list whose keys are
distinct by construction. -/
def buildDict {β : Type} (rows : List (String × β)) : List (String × β) :=
  rows.foldl (fun d r => d.filter (fun e => !(e.1 == r.1)) ++ [r]) []

/-- Dict lookup with a default (`d.get(k, 0)`-style access). -/
def dictFindD {β : Type} (d : List (String × β)) (k : String) (dflt : β) : β :=
  match d.find? (fun e => e.1 == k) with
  | some e => e.2
  | none => dflt

/-- Keys of an association list / dict. -/
def dictKeys {β : Type} (d : List (String × β)) : List String :=
  d.map Prod.fst

/-- SQL `SELECT key, SUM(val) ... GROUP BY key` over a list of
(key, value) rows. -/
def groupSum (rows : List (String × Int)) : List (String × Int) :=
  (rows.map Prod.fst).dedup.map
    (fun k => (k, ((rows.filter (fun r => r.1 == k)).map Prod.snd).sum))

theorem find?_map_pair {β : Type} (keys : List String) (f : String → β) (k : String) :
    (keys.map (fun k2 => (k2, f k2))).find? (fun e => e.1 == k) =
      (keys.find? (fun k2 => k2 == k)).map (fun k2 => (k2, f k2)) := by
  induction keys with
  | nil => rfl
  | cons a as ih =>
    by_cases h : a = k
    · subst h
      simp [List.find?]
    · simp only [List.map_cons, List.find?]
      have hne : (a == k) = false := beq_eq_false_iff_ne.mpr h
      simp only [hne]
      exact ih

theorem find?_beq_self_of_mem {l : List String} {k : String} (hk : k ∈ l) :
    l.find? (fun k2 => k2 == k) = some k := by
  induction l with
  | nil => cases hk
  | cons a as ih =>
    by_cases h : a = k
    · subst h
      simp [List.find?]
    · have hne : (a == k) = false := beq_eq_false_iff_ne.mpr h
      simp only [List.find?, hne]
      exact ih (by rcases List.mem_cons.mp hk with h1 | h1; exact absurd h1.symm h; exact h1)

theorem dictFindD_groupSum (rows : List (String × Int)) (k : String) :
    dictFindD (groupSum rows) k 0 =
      ((rows.filter (fun r => r.1 == k)).map Prod.snd).sum := by
  unfold dictFindD groupSum
  rw [find?_map_pair]
  by_cases hk : k ∈ (rows.map Prod.fst).dedup
  · rw [find?_beq_self_of_mem hk]
    rfl
  · have h1 : (rows.map Prod.fst).dedup.find? (fun k2 => k2 == k) = none := by
      apply List.find?_eq_none.mpr
      intro x hx
      simp only [beq_iff_eq]
      intro hxk
      exact hk (hxk ▸ hx)
    rw [h1]
    have h2 : rows.filter (fun r => r.1 == k) = [] := by
      apply List.filter_eq_nil_iff.mpr
      intro r hr
      simp only [beq_iff_eq]
      intro hrk
      apply hk
      rw [List.mem_dedup]
      exact hrk ▸ List.mem_map_of_mem Prod.fst hr
    simp [h2]

/-! ### Data model (`app/models/product.py`, `app/models/inventory_count.py`)

Rows are embedded with the columns the modelled operations read or write;
optional (nullable) columns are `Option`s, and the Python convention that
empty strings are normalised to `None` (`str(...).strip() or None`) is
reflected by taking those fields as `Option String` directly. -/

/-- A row of `products`. -/
structure Product where
  id : Nat
  sku : String
  cova_sku : Option String
  name : String
  brand : Option String
  category : Option String
  subcategory : Option String
deriving DecidableEq, Repr

/-- A row of `inventory_items` (store-specific baseline snapshot). -/
structure InventoryItem where
  store_id : Nat
  product_id : Nat
  current_quantity : Option Int
deriving DecidableEq, Repr

/-- A row of `inventory_count_sessions`. -/
structure CountSession where
  id : String
  store_id : Nat
  status : String
deriving DecidableEq, Repr

/-- A row of `inventory_count_passes`. -/
structure CountPass where
  id : String
  session_id : String
  location_id : Nat
  category : Option String
  subcategory : Option String
  started_at : DateTime
  submitted_at : Option DateTime
  status : String
deriving DecidableEq, Repr

/-- A row of `inventory_count_lines`. -/
structure CountLine where
  id : String
  count_pass_id : String
  product_id : Nat
  sku : String
  barcode : String
  package_id : Option String
  counted_qty : Int
  unit : String
  captured_at : DateTime
  captured_by_user_id : Nat
  confidence : String
  notes : Option String
deriving DecidableEq, Repr

/-- A row of `inventory_movements`. -/
structure Movement where
  store_id : Nat
  product_id : Nat
  sku : String
  movement_type : String
  qty_delta : Int
  occurred_at : DateTime
  source : String
  source_ref : Option String
deriving DecidableEq, Repr

/-- A row of the external `cova_sales` table read by the sales sync. -/
structure Sale where
  transaction_id : String
  line_number : Nat
  store_id : String
  transaction_date : Int
  transaction_time : Option Int
  product_sku : Option String
  quantity : Int
deriving DecidableEq, Repr

/-- The relational store, one list per table. -/
structure DB where
  products : List Product
  inventory_items : List InventoryItem
  sessions : List CountSession
  passes : List CountPass
  lines : List CountLine
  movements : List Movement
deriving DecidableEq, Repr

/-! ### Count API (`app/api/count.py`) -/

/-- Structured errors returned by the API handlers (the `jsonify` error
payloads of `count.py`). -/
inductive ApiErr where
  /-- HTTP 404: session / pass / line / product absent. -/
  | notFound (what : String)
  /-- HTTP 400: operation attempted outside the required lifecycle state;
  carries the offending status. -/
  | invalidState (status : String)
  /-- HTTP 400: missing required field. -/
  | validation (what : String)
  /-- HTTP 400: scanned product's category/subcategory conflicts with the pass
  scope; carries the scope kind, the expected value and the actual value. -/
  | scopeMismatch (kind : String) (expected : String) (got : String)
  /-- HTTP 400: `submit_session` with `n` passes still in progress. -/
  | passesInProgress (n : Nat)
deriving DecidableEq, Repr

/-- Result of a state-changing handler: the resulting store (unchanged on
error, since every error path in `count.py` returns before mutating) and
the response payload or error. -/
structure OpResult (ρ : Type) where
  db : DB
  resp : Except ApiErr ρ

/-- Response of `add_line`: the resulting line, whether an existing line was
incremented, and (only on increment) the reported `previous_qty`. -/
structure AddLineResp where
  line : CountLine
  incremented : Bool
  previous_qty : Option Int
deriving DecidableEq, Repr

/-- Catalog lookup `Product.query.filter((Product.sku == barcode) | (Product.cova_sku ==
barcode)).first()`. -/
def findProduct (db : DB) (barcode : String) : Option Product :=
  db.products.find? (fun p => p.sku == barcode || p.cova_sku == some barcode)

/-- Python `str.lower()` on one character (ASCII case fold, which covers
the category vocabulary of the data model). -/
def lowerChar (c : Char) : Char :=
  if 65 ≤ c.toNat ∧ c.toNat ≤ 90 then Char.ofNat (c.toNat + 32) else c

/-- Python `str.lower()`. -/
def strLower (s : String) : String := ⟨s.data.map lowerChar⟩

/-- The category scope check of `add_line`: `if count_pass.category and
product.category: if product.category.lower() != count_pass.category.lower()`.
Returns `some (expected, got)` when the check fails. -/
def catMismatch (cp : CountPass) (prod : Product) : Option (String × String) :=
  match cp.category, prod.category with
  | some pc, some prc => if strLower prc ≠ strLower pc then some (pc, prc) else none
  | _, _ => none

/-- The subcategory scope check of `add_line`, same shape as `catMismatch`. -/
def subMismatch (cp : CountPass) (prod : Product) : Option (String × String) :=
  match cp.subcategory, prod.subcategory with
  | some pc, some prc => if strLower prc ≠ strLower pc then some (pc, prc) else none
  | _, _ => none

/-- Mutate the first list element satisfying `p` (the SQLAlchemy
`query.first()`-then-assign pattern). -/
def updateFirstLine (p : CountLine → Bool) (f : CountLine → CountLine) :
    List CountLine → List CountLine
  | [] => []
  | l :: ls => if p l then f l :: ls else l :: updateFirstLine p f ls

/-- The line created by `add_line` when no line for (pass, SKU) exists yet:
quantity as given, unit defaulting to `each`, the scanned barcode kept
verbatim. -/
def newCountLine (pass_id : String) (prod : Product) (barcode : String)
    (qty : Int) (package_id : Option String) (now : DateTime) (uid : Nat)
    (confidence : String) (notes : Option String) (newId : String) : CountLine :=
  { id := newId, count_pass_id := pass_id, product_id := prod.id,
    sku := prod.sku, barcode := barcode, package_id := package_id,
    counted_qty := qty, unit := "each", captured_at := now,
    captured_by_user_id := uid, confidence := confidence, notes := notes }

/-- The increment applied by `add_line` to an existing line for the same
(pass, SKU): add the quantity, refresh capture metadata, overwrite notes
only when the new notes are non-empty. -/
def incLine (qty : Int) (now : DateTime) (uid : Nat) (notes : Option String)
    (l : CountLine) : CountLine :=
  { l with
    counted_qty := l.counted_qty + qty
    captured_at := now
    captured_by_user_id := uid
    notes := match notes with | some n => some n | none => l.notes }

/-- Handler `add_line` (`POST /passes/<pass_id>/lines`).  Arguments mirror the JSON
payload after the handler's `str(...).strip()` normalisation: `qty` is
`counted_qty` (default 1 at the call site), `notes`/`package_id` are `none`
when blank.  `newId` stands for the generated UUID of a freshly created
line; `now` for `datetime.utcnow()`. -/
def addLine (db : DB) (now : DateTime) (uid : Nat) (pass_id : String)
    (barcode : String) (qty : Int) (package_id : Option String)
    (confidence : String) (notes : Option String) (newId : String) :
    OpResult AddLineResp :=
  match db.passes.find? (fun p => p.id == pass_id) with
  | none => ⟨db, .error (.notFound "pass")⟩
  | some cp =>
    if cp.status ≠ "in_progress" then ⟨db, .error (.invalidState cp.status)⟩
    else if barcode = "" then ⟨db, .error (.validation "barcode")⟩
    else match findProduct db barcode with
    | none => ⟨db, .error (.notFound "product")⟩
    | some prod =>
      match catMismatch cp prod with
      | some eg => ⟨db, .error (.scopeMismatch "category" eg.1 eg.2)⟩
      | none =>
        match subMismatch cp prod with
        | some eg => ⟨db, .error (.scopeMismatch "subcategory" eg.1 eg.2)⟩
        | none =>
          match db.lines.find? (fun l => l.count_pass_id == pass_id && l.sku == prod.sku) with
          | some existing =>
            let updated := incLine qty now uid notes existing
            let newLines := updateFirstLine
              (fun l => l.count_pass_id == pass_id && l.sku == prod.sku)
              (incLine qty now uid notes) db.lines
            ⟨{ db with lines := newLines },
             .ok { line := updated, incremented := true,
                   previous_qty := some (updated.counted_qty - qty) }⟩
          | none =>
            let line := newCountLine pass_id prod barcode qty package_id now uid
              confidence notes newId
            ⟨{ db with lines := db.lines ++ [line] },
             .ok { line := line, incremented := false, previous_qty := none }⟩

/-- Handler `update_line` (`PUT /lines/<line_id>`, manual correction).  `qty?` and
`notes?` are `some` exactly when the corresponding key is present in the
JSON payload. -/
def updateLine (db : DB) (now : DateTime) (uid : Nat) (line_id : String)
    (qty? : Option Int) (notes? : Option (Option String)) : OpResult CountLine :=
  match db.lines.find? (fun l => l.id == line_id) with
  | none => ⟨db, .error (.notFound "line")⟩
  | some line =>
    match db.passes.find? (fun p => p.id == line.count_pass_id) with
    | none => ⟨db, .error (.notFound "pass")⟩
    | some cp =>
      if cp.status ≠ "in_progress" then ⟨db, .error (.invalidState cp.status)⟩
      else
        let f : CountLine → CountLine := fun l =>
          { l with
            counted_qty := match qty? with | some q => q | none => l.counted_qty
            notes := match notes? with | some n => n | none => l.notes
            confidence := "corrected"
            captured_at := now
            captured_by_user_id := uid }
        ⟨{ db with lines := updateFirstLine (fun l => l.id == line_id) f db.lines },
         .ok (f line)⟩

/-- Handler `delete_line` (`DELETE /lines/<line_id>`). -/
def deleteLine (db : DB) (line_id : String) : OpResult Bool :=
  match db.lines.find? (fun l => l.id == line_id) with
  | none => ⟨db, .error (.notFound "line")⟩
  | some line =>
    match db.passes.find? (fun p => p.id == line.count_pass_id) with
    | none => ⟨db, .error (.notFound "pass")⟩
    | some cp =>
      if cp.status ≠ "in_progress" then ⟨db, .error (.invalidState cp.status)⟩
      else ⟨{ db with lines := db.lines.eraseP (fun l => l.id == line_id) }, .ok true⟩

/-- Handler `submit_session` (`POST /sessions/<session_id>/submit`): requires the
session to be `in_progress` and no pass of the session to be `in_progress`. -/
def submitSession (db : DB) (session_id : String) : OpResult CountSession :=
  match db.sessions.find? (fun s => s.id == session_id) with
  | none => ⟨db, .error (.notFound "session")⟩
  | some session =>
    if session.status ≠ "in_progress" then ⟨db, .error (.invalidState session.status)⟩
    else
      let open_passes :=
        (db.passes.filter (fun p => p.session_id == session_id &&
          p.status == "in_progress")).length
      if open_passes > 0 then ⟨db, .error (.passesInProgress open_passes)⟩
      else
        let updated := { session with status := "submitted" }
        let newSessions := db.sessions.map
          (fun s => if s.id == session_id then { s with status := "submitted" } else s)
        ⟨{ db with sessions := newSessions }, .ok updated⟩

/-! ### Variance engine (`get_variance` in `app/api/count.py`) -/

/-- The join condition of the counted-quantities query: the line's pass (FK
`count_pass_id`) belongs to the session and is submitted. -/
def lineInSubmittedPass (db : DB) (session_id : String) (ln : CountLine) : Bool :=
  match db.passes.find? (fun p => p.id == ln.count_pass_id) with
  | some p => p.session_id == session_id && p.status == "submitted"
  | none => false

/-- Query `InventoryCountPass.query.filter_by(session_id=..., status="submitted")`. -/
def submittedPasses (db : DB) (session_id : String) : List CountPass :=
  db.passes.filter (fun p => p.session_id == session_id && p.status == "submitted")

/-- The (sku, counted_qty) rows fed to the counted-by-SKU aggregation. -/
def countedRows (db : DB) (session_id : String) : List (String × Int) :=
  (db.lines.filter (lineInSubmittedPass db session_id)).map
    (fun ln => (ln.sku, ln.counted_qty))

/-- The (Product.sku, current_quantity or 0) rows of the baseline query:
products joined to the store's inventory items. -/
def baselineRows (db : DB) (store_id : Nat) : List (String × Int) :=
  (db.products.flatMap (fun p =>
    (db.inventory_items.filter (fun it => it.product_id == p.id &&
      it.store_id == store_id)).map (fun it => (p.sku, it.current_quantity)))).map
    (fun r => (r.1, r.2.getD 0))

/-- The movement window and grouped movement sums of `get_variance`.
`none` models the Python `ValueError` raised by
`max(p.submitted_at for p in passes if p.submitted_at)` when every
submitted pass has a null `submitted_at`; with no submitted pass at all the
movement dict stays empty. -/
def movementDeltas (db : DB) (store_id : Nat) (passes : List CountPass) :
    Option (List (String × Int)) :=
  match passes with
  | [] => some []
  | p :: ps =>
    let earliest := dtFoldMin p.started_at (ps.map (fun q => q.started_at))
    match (p :: ps).filterMap (fun q => q.submitted_at) with
    | [] => none
    | t :: ts =>
      let latest := dtFoldMax t ts
      some (groupSum ((db.movements.filter (fun m => m.store_id == store_id &&
        dtLe earliest m.occurred_at && dtLe m.occurred_at latest)).map
        (fun m => (m.sku, m.qty_delta))))

/-- One item of the variance report. -/
structure VItem where
  sku : String
  product_name : Option String
  brand : Option String
  category : Option String
  subcategory : Option String
  counted_qty : Int
  baseline_qty : Int
  movement_delta : Int
  expected_qty : Int
  variance : Int
deriving DecidableEq, Repr

/-- The variance report returned by `get_variance`. -/
structure VReport where
  session_id : String
  store_id : Nat
  status : String
  total_skus : Nat
  total_variance : Int
  items : List VItem
deriving DecidableEq, Repr

/-- Failure modes of `get_variance`: a missing session (404), or the
unhandled `ValueError` from `max()` over an empty sequence. -/
inductive VErr where
  | sessionNotFound
  | maxOfEmptySequence
deriving DecidableEq, Repr

/-- Lexicographic code-point comparison of character lists (how Python
compares strings). -/
def charListLt : List Char → List Char → Bool
  | _, [] => false
  | [], _ :: _ => true
  | c :: cs, d :: ds =>
    decide (c.toNat < d.toNat) || (decide (c.toNat = d.toNat) && charListLt cs ds)

/-- Python `<` on strings: lexicographic by code point. -/
def strLt (a b : String) : Bool := charListLt a.data b.data

/-- Python `sorted` on strings. -/
def sortStrings (l : List String) : List String :=
  stableSortBy strLt l

theorem charListLt_antisymm : ∀ {x y : List Char},
    charListLt x y = false → charListLt y x = false → x = y
  | [], [], _, _ => rfl
  | [], _ :: _, h1, _ => by simp [charListLt] at h1
  | _ :: _, [], _, h2 => by simp [charListLt] at h2
  | c :: cs, d :: ds, h1, h2 => by
    simp only [charListLt, Bool.or_eq_false_iff, Bool.and_eq_false_iff,
      decide_eq_false_iff_not] at h1 h2
    have hcd : c.toNat = d.toNat := by omega
    have hc : c = d := Char.eq_of_val_eq (UInt32.toNat.inj hcd)
    subst hc
    have h1r : charListLt cs ds = false := by
      rcases h1.2 with h | h
      · exact absurd rfl h
      · exact h
    have h2r : charListLt ds cs = false := by
      rcases h2.2 with h | h
      · exact absurd rfl h
      · exact h
    rw [charListLt_antisymm h1r h2r]

theorem charListLt_trans : ∀ {x y z : List Char},
    charListLt x y = true → charListLt y z = true → charListLt x z = true
  | _, _, [], _, h2 => by simp [charListLt] at h2
  | _, [], _ :: _, h1, _ => by simp [charListLt] at h1
  | [], _ :: _, _ :: _, _, _ => by simp [charListLt]
  | c :: cs, d :: ds, e :: es, h1, h2 => by
    simp only [charListLt, Bool.or_eq_true, Bool.and_eq_true,
      decide_eq_true_eq] at h1 h2 ⊢
    rcases h1 with h1 | ⟨h1e, h1r⟩
    · rcases h2 with h2 | ⟨h2e, h2r⟩
      · left; omega
      · left; omega
    · rcases h2 with h2 | ⟨h2e, h2r⟩
      · left; omega
      · right
        exact ⟨by omega, charListLt_trans h1r h2r⟩

theorem strLt_antisymm {a b : String} (h1 : strLt a b = false)
    (h2 : strLt b a = false) : a = b :=
  String.ext (charListLt_antisymm h1 h2)

theorem strLt_trans {a b c : String} (h1 : strLt a b = true)
    (h2 : strLt b c = true) : strLt a c = true :=
  charListLt_trans h1 h2

/-- A stable string sort of a duplicate-free list is strictly ascending. -/
theorem sortStrings_pairwise {l : List String} (h : l.Nodup) :
    (sortStrings l).Pairwise (fun a b => strLt a b = true) := by
  unfold sortStrings
  induction l with
  | nil => simp [stableSortBy]
  | cons x xs ih =>
    rw [List.nodup_cons] at h
    simp only [stableSortBy]
    apply pairwise_insertBy (S := fun a b => a ≠ b) (ih h.2)
    · intro y hy
      intro heq
      exact h.1 (heq ▸ mem_stableSortBy.mp hy)
    · intro y hxy hyx
      cases hlt : strLt x y
      · exact absurd (strLt_antisymm hlt hyx) hxy
      · rfl
    · intro y hlt
      exact hlt
    · intro y z _ hyz hyx
      cases hlt : strLt x y
      · rw [strLt_antisymm hlt hyx]
        exact hyz
      · exact strLt_trans hlt hyz


/-- Handler `get_variance` (`GET /sessions/<session_id>/variance`). -/
def getVariance (db : DB) (session_id : String) (non_zero_only : Bool) :
    Except VErr VReport :=
  match db.sessions.find? (fun s => s.id == session_id) with
  | none => .error .sessionNotFound
  | some session =>
    let counted_by_sku := groupSum (countedRows db session_id)
    let baseline_by_sku := buildDict (baselineRows db session.store_id)
    let passes := submittedPasses db session_id
    match movementDeltas db session.store_id passes with
    | none => .error .maxOfEmptySequence
    | some movement_by_sku =>
      let all_skus := sortStrings ((dictKeys counted_by_sku ++
        dictKeys baseline_by_sku).dedup)
      let product_info := buildDict
        ((db.products.filter (fun p => all_skus.contains p.sku)).map
          (fun p => (p.sku, p)))
      let results := all_skus.filterMap (fun sku =>
        let counted := dictFindD counted_by_sku sku 0
        let baseline := dictFindD baseline_by_sku sku 0
        let movement := dictFindD movement_by_sku sku 0
        let expected := baseline + movement
        let variance := counted - expected
        if non_zero_only && variance == 0 then none
        else
          let product := (product_info.find? (fun e => e.1 == sku)).map Prod.snd
          some { sku := sku
                 product_name := product.map (fun p => p.name)
                 brand := product.bind (fun p => p.brand)
                 category := product.bind (fun p => p.category)
                 subcategory := product.bind (fun p => p.subcategory)
                 counted_qty := counted
                 baseline_qty := baseline
                 movement_delta := movement
                 expected_qty := expected
                 variance := variance : VItem })
      let sorted := stableSortBy (fun a b => decide (|a.variance| > |b.variance|)) results
      .ok { session_id := session_id, store_id := session.store_id,
            status := session.status, total_skus := results.length,
            total_variance := (results.map (fun r => |r.variance|)).sum,
            items := sorted }

/-- The items of the variance report of a session (empty when `get_variance`
fails). -/
def reportItems (db : DB) (session_id : String) (non_zero_only : Bool) : List VItem :=
  match getVariance db session_id non_zero_only with
  | .ok r => r.items
  | .error _ => []

/-! ### Sales sync (`app/services/sales_sync.py`) -/

/-- Table `SalesSyncService.STORE_ID_MAP`, in its Python insertion order. -/
def storeIdMap : List (String × Nat) :=
  [("kingsway", 1), ("Kingsway", 1), ("1", 1),
   ("fraser", 2), ("Fraser", 2), ("2", 2)]

/-- Mapping `SalesSyncService._get_cova_store_ids`: reverse lookup, falling back to
the stringified IKE id. -/
def getCovaStoreIds (ike_store_id : Nat) : List String :=
  let cova_ids := (storeIdMap.filter (fun e => e.2 == ike_store_id)).map Prod.fst
  if cova_ids = [] then [toString ike_store_id] else cova_ids

/-- The `ORDER BY transaction_date, transaction_time` of the sales query
(null time sorts first, as in SQL ascending order with NULLS FIRST in
SQLite). -/
def saleLt (a b : Sale) : Bool :=
  a.transaction_date < b.transaction_date ||
    (a.transaction_date == b.transaction_date &&
      a.transaction_time.getD (-1) < b.transaction_time.getD (-1))

/-- The `cova_sales` query of `sync_sales_to_movements`: rows of the date
range for the mapped external store ids, ordered by date then time. -/
def fetchSales (cova_sales : List Sale) (cova_store_ids : List String)
    (from_date to_date : Int) : List Sale :=
  stableSortBy saleLt (cova_sales.filter (fun s =>
    from_date ≤ s.transaction_date && s.transaction_date ≤ to_date &&
      cova_store_ids.contains s.store_id))

/-- Transform `SalesSyncService._sale_to_movement`: resolve the sale's SKU against the
catalog (primary or Cova SKU); build a movement with sign-normalised
negative quantity, `occurred_at = datetime.combine(date, time or midnight)`,
source `cova_sync` and the `transactionId:lineNumber` idempotency key.
`none` when the SKU is blank or unresolvable. -/
def saleToMovement (products : List Product) (store_id : Nat) (sale : Sale) :
    Option Movement :=
  match sale.product_sku with
  | none => none
  | some sku =>
    if sku = "" then none
    else
      match products.find? (fun p => p.sku == sku || p.cova_sku == some sku) with
      | none => none
      | some product =>
        some { store_id := store_id
               product_id := product.id
               sku := sku
               movement_type := "sale"
               qty_delta := -(sale.quantity.natAbs : Int)
               occurred_at := { day := sale.transaction_date,
                                tod := sale.transaction_time.getD 0 }
               source := "cova_sync"
               source_ref := some (sale.transaction_id ++ ":" ++
                 toString sale.line_number) }

/-- The statistics dict returned by `sync_sales_to_movements` (the fields
the sync itself computes; `products_not_found` and `errors` are folded into
the skip count here). -/
structure SyncStats where
  sales_found : Nat
  movements_created : Nat
  movements_skipped : Nat
  movements_deleted : Nat
deriving DecidableEq, Repr

/-- The force-resync delete filter: movements of the store whose
`date(occurred_at)` lies in the range and whose source is `cova_sync`. -/
def forceDeleteMatch (store_id : Nat) (from_date to_date : Int) (m : Movement) : Bool :=
  m.store_id == store_id && from_date ≤ m.occurred_at.day &&
    m.occurred_at.day ≤ to_date && m.source == "cova_sync"

/-- The existence check of the sync loop:
`filter_by(store_id=store_id, sku=movement.sku, source_ref=movement.source_ref)`. -/
def movementKeyMatch (store_id : Nat) (m e : Movement) : Bool :=
  e.store_id == store_id && e.sku == m.sku && e.source_ref == m.source_ref

/-- One step of the sync loop over a fetched sale: skip unresolvable sales;
skip candidates whose (store, sku, source_ref) already exists unless
forcing; otherwise append the movement (the existence query autoflushes, so
it sees rows added earlier in the same batch). -/
def syncStep (products : List Product) (store_id : Nat) (force_resync : Bool)
    (acc : List Movement × Nat × Nat) (sale : Sale) : List Movement × Nat × Nat :=
  match saleToMovement products store_id sale with
  | none => (acc.1, acc.2.1, acc.2.2 + 1)
  | some movement =>
    let existing := acc.1.find? (movementKeyMatch store_id movement)
    if existing.isSome && !force_resync then (acc.1, acc.2.1, acc.2.2 + 1)
    else (acc.1 ++ [movement], acc.2.1 + 1, acc.2.2)

/-- Service `SalesSyncService.sync_sales_to_movements`: returns the resulting
`inventory_movements` table and the sync statistics. -/
def syncSalesToMovements (products : List Product) (cova_sales : List Sale)
    (store_id : Nat) (from_date to_date : Int) (force_resync : Bool)
    (movements : List Movement) : List Movement × SyncStats :=
  let sales := fetchSales cova_sales (getCovaStoreIds store_id) from_date to_date
  let deleted := if force_resync
    then (movements.filter (forceDeleteMatch store_id from_date to_date)).length
    else 0
  let base := if force_resync
    then movements.filter (fun m => !(forceDeleteMatch store_id from_date to_date m))
    else movements
  let out := sales.foldl (syncStep products store_id force_resync) (base, 0, 0)
  (out.1, { sales_found := sales.length, movements_created := out.2.1,
            movements_skipped := out.2.2, movements_deleted := deleted })

/-! ### Specification-level formulations

Direct (dict-free) formulations of the aggregates of the variance report,
written the way the spec states them, to be proved equal to what
`getVariance` computes. -/

/-- Spec formulation of the counted aggregate: the sum of `counted_qty`
over all lines of the session's submitted passes bearing the SKU. -/
def countedSpec (db : DB) (session_id sku : String) : Int :=
  ((db.lines.filter (fun ln => lineInSubmittedPass db session_id ln &&
    ln.sku == sku)).map (fun ln => ln.counted_qty)).sum

/-- Spec formulation of the baseline: the store's inventory-snapshot
quantity for the SKU, 0 if absent (first matching joined row). -/
def baselineSpec (db : DB) (store_id : Nat) (sku : String) : Int :=
  dictFindD (baselineRows db store_id) sku 0

/-- Spec formulation of the movement delta: the sum of `qty_delta` over the
store's movements with `occurred_at` in the inclusive window
`[earliest, latest]`, for the SKU. -/
def movementSpec (db : DB) (store_id : Nat) (earliest latest : DateTime)
    (sku : String) : Int :=
  ((db.movements.filter (fun m => m.store_id == store_id &&
    dtLe earliest m.occurred_at && dtLe m.occurred_at latest &&
    m.sku == sku)).map (fun m => m.qty_delta)).sum

/-! ### Dict plumbing lemmas -/

theorem mem_dictKeys_buildDict {β : Type} (rows : List (String × β)) (k : String) :
    k ∈ dictKeys (buildDict rows) ↔ k ∈ rows.map Prod.fst := by
  suffices h : ∀ acc : List (String × β),
      k ∈ dictKeys (rows.foldl
        (fun d r => d.filter (fun e => !(e.1 == r.1)) ++ [r]) acc) ↔
        k ∈ dictKeys acc ∨ k ∈ rows.map Prod.fst by
    have h2 := h []
    simpa [buildDict, dictKeys] using h2
  induction rows with
  | nil => intro acc; simp
  | cons r rs ih =>
    have hstep : ∀ d : List (String × β),
        k ∈ dictKeys (d.filter (fun e => !(e.1 == r.1)) ++ [r]) ↔
          k ∈ dictKeys d ∨ k = r.1 := by
      intro d
      by_cases hk : k = r.1
      · subst hk; simp [dictKeys]
      · simp only [dictKeys, List.map_append, List.mem_append, List.map_cons,
          List.map_nil, List.mem_singleton]
        constructor
        · rintro (h | h)
          · rcases List.mem_map.mp h with ⟨e, he, hek⟩
            exact Or.inl (List.mem_map.mpr ⟨e, List.mem_of_mem_filter he, hek⟩)
          · exact Or.inr h
        · rintro (h | h)
          · rcases List.mem_map.mp h with ⟨e, he, hek⟩
            refine Or.inl (List.mem_map.mpr ⟨e, List.mem_filter.mpr ⟨he, ?_⟩, hek⟩)
            simp only [Bool.not_eq_true']
            exact beq_eq_false_iff_ne.mpr (by rw [hek]; exact hk)
          · exact Or.inr h
    intro acc
    rw [List.foldl_cons, ih, hstep acc]
    simp only [List.map_cons, List.mem_cons]
    tauto

theorem buildDict_eq_self {β : Type} {rows : List (String × β)}
    (h : (rows.map Prod.fst).Nodup) : buildDict rows = rows := by
  suffices hgen : ∀ acc : List (String × β),
      ((acc ++ rows).map Prod.fst).Nodup →
      rows.foldl (fun d r => d.filter (fun e => !(e.1 == r.1)) ++ [r]) acc =
        acc ++ rows by
    simpa [buildDict] using hgen [] (by simpa using h)
  clear h
  induction rows with
  | nil => intro acc _; simp
  | cons r rs ih =>
    intro acc hacc
    rw [List.foldl_cons]
    have hr1 : r.1 ∉ acc.map Prod.fst := by
      intro hmem
      rw [List.map_append] at hacc
      have := (List.nodup_append.mp hacc).2.2
      exact this hmem (by simp)
    have hfilter : acc.filter (fun e => !(e.1 == r.1)) = acc := by
      apply List.filter_eq_self.mpr
      intro e he
      simp only [Bool.not_eq_true']
      apply beq_eq_false_iff_ne.mpr
      intro heq
      exact hr1 (heq ▸ List.mem_map_of_mem Prod.fst he)
    rw [hfilter]
    have := ih (acc ++ [r]) (by simpa using hacc)
    rw [this, List.append_assoc]
    simp

theorem dictFindD_buildDict_of_nodup {β : Type} {rows : List (String × β)}
    (h : (rows.map Prod.fst).Nodup) (k : String) (dflt : β) :
    dictFindD (buildDict rows) k dflt = dictFindD rows k dflt := by
  rw [buildDict_eq_self h]

theorem groupSum_lookup_filter_map {α : Type} (l : List α) (p : α → Bool)
    (key : α → String) (val : α → Int) (sku : String) :
    dictFindD (groupSum ((l.filter p).map (fun a => (key a, val a)))) sku 0 =
      ((l.filter (fun a => p a && key a == sku)).map val).sum := by
  rw [dictFindD_groupSum]
  induction l with
  | nil => rfl
  | cons a as ih =>
    by_cases hp : p a = true
    · by_cases hk : (key a == sku) = true
      · rw [List.filter_cons_of_pos hp, List.map_cons,
          List.filter_cons_of_pos (by simpa using hk),
          List.filter_cons_of_pos (by simp [hp, hk]),
          List.map_cons, List.map_cons, List.sum_cons, List.sum_cons, ih]
      · rw [List.filter_cons_of_pos hp, List.map_cons,
          List.filter_cons_of_neg (by simpa using hk),
          List.filter_cons_of_neg (by simp [hp, hk])]
        exact ih
    · rw [List.filter_cons_of_neg (by simpa using hp),
        List.filter_cons_of_neg (by simp [hp])]
      exact ih

theorem dictKeys_groupSum (rows : List (String × Int)) :
    dictKeys (groupSum rows) = (rows.map Prod.fst).dedup := by
  unfold dictKeys groupSum
  rw [List.map_map]
  have hcomp : (Prod.fst ∘ fun k =>
      (k, ((rows.filter (fun r => r.1 == k)).map Prod.snd).sum)) = id :=
    funext (fun k => rfl)
  rw [hcomp, List.map_id]

theorem counted_lookup (db : DB) (session_id sku : String) :
    dictFindD (groupSum (countedRows db session_id)) sku 0 =
      countedSpec db session_id sku := by
  unfold countedRows countedSpec
  exact groupSum_lookup_filter_map db.lines (lineInSubmittedPass db session_id)
    (fun ln => ln.sku) (fun ln => ln.counted_qty) sku

theorem movement_lookup (db : DB) (store_id : Nat) (earliest latest : DateTime)
    (sku : String) :
    dictFindD (groupSum ((db.movements.filter (fun m => m.store_id == store_id &&
      dtLe earliest m.occurred_at && dtLe m.occurred_at latest)).map
      (fun m => (m.sku, m.qty_delta)))) sku 0 =
      movementSpec db store_id earliest latest sku := by
  unfold movementSpec
  exact groupSum_lookup_filter_map db.movements
    (fun m => m.store_id == store_id && dtLe earliest m.occurred_at &&
      dtLe m.occurred_at latest)
    (fun m => m.sku) (fun m => m.qty_delta) sku

/-- Master characterisation of an item of the variance report: every field
is the dict lookup `get_variance` computed for the item's SKU, the SKU comes
from the counted/baseline key union, and under `non_zero_only` the variance
is non-zero. -/
theorem mem_reportItems {db : DB} {session_id : String} {nzo : Bool}
    {sess : CountSession} {mdict : List (String × Int)} {it : VItem}
    (hs : db.sessions.find? (fun s => s.id == session_id) = some sess)
    (hmv : movementDeltas db sess.store_id (submittedPasses db session_id) =
      some mdict)
    (hit : it ∈ reportItems db session_id nzo) :
    it.counted_qty = dictFindD (groupSum (countedRows db session_id)) it.sku 0 ∧
    it.baseline_qty = dictFindD (buildDict (baselineRows db sess.store_id)) it.sku 0 ∧
    it.movement_delta = dictFindD mdict it.sku 0 ∧
    it.expected_qty = it.baseline_qty + it.movement_delta ∧
    it.variance = it.counted_qty - it.expected_qty ∧
    (it.sku ∈ dictKeys (groupSum (countedRows db session_id)) ∨
      it.sku ∈ dictKeys (buildDict (baselineRows db sess.store_id))) ∧
    (nzo = true → it.variance ≠ 0) := by
  unfold reportItems getVariance at hit
  rw [hs] at hit
  simp only [hmv] at hit
  rw [mem_stableSortBy, List.mem_filterMap] at hit
  obtain ⟨sku, hsku, hf⟩ := hit
  unfold sortStrings at hsku
  rw [mem_stableSortBy, List.mem_dedup, List.mem_append] at hsku
  split at hf
  · exact absurd hf (by simp)
  case isFalse hz =>
    injection hf with hf
    subst hf
    refine ⟨rfl, rfl, rfl, rfl, rfl, hsku, ?_⟩
    intro hnzo
    intro hv
    apply hz
    rw [hnzo]
    simp only [Bool.true_and, beq_iff_eq]
    exact hv

/-! ### Sample data for concrete witnesses -/

/-- Sample store: two products, a baseline of 10 for SKU `A`, one session
with two submitted passes (whose individual windows are disjoint), one
voided pass holding a line that must not count, and one sale movement that
falls between the two passes' own windows but inside the session's union
window. -/
def dbEx : DB :=
  { products := [{ id := 1, sku := "A", cova_sku := some "CA", name := "ProdA",
                   brand := none, category := none, subcategory := none },
                 { id := 2, sku := "B", cova_sku := none, name := "ProdB",
                   brand := none, category := none, subcategory := none }]
    inventory_items := [{ store_id := 1, product_id := 1, current_quantity := some 10 }]
    sessions := [{ id := "S", store_id := 1, status := "in_progress" }]
    passes := [{ id := "P1", session_id := "S", location_id := 1, category := none,
                 subcategory := none, started_at := ⟨0, 0⟩,
                 submitted_at := some ⟨0, 10⟩, status := "submitted" },
               { id := "P2", session_id := "S", location_id := 1, category := none,
                 subcategory := none, started_at := ⟨0, 20⟩,
                 submitted_at := some ⟨0, 30⟩, status := "submitted" },
               { id := "P3", session_id := "S", location_id := 1, category := none,
                 subcategory := none, started_at := ⟨0, 2⟩,
                 submitted_at := none, status := "voided" }]
    lines := [{ id := "L1", count_pass_id := "P1", product_id := 1, sku := "A",
                barcode := "A", package_id := none, counted_qty := 8, unit := "each",
                captured_at := ⟨0, 5⟩, captured_by_user_id := 7,
                confidence := "scanned", notes := none },
              { id := "L2", count_pass_id := "P3", product_id := 1, sku := "A",
                barcode := "A", package_id := none, counted_qty := 99, unit := "each",
                captured_at := ⟨0, 3⟩, captured_by_user_id := 7,
                confidence := "scanned", notes := none },
              { id := "L3", count_pass_id := "P2", product_id := 2, sku := "B",
                barcode := "B", package_id := none, counted_qty := 5, unit := "each",
                captured_at := ⟨0, 25⟩, captured_by_user_id := 7,
                confidence := "scanned", notes := none }]
    movements := [{ store_id := 1, product_id := 1, sku := "A",
                    movement_type := "sale", qty_delta := -3,
                    occurred_at := ⟨0, 15⟩, source := "cova_sync",
                    source_ref := some "T:1" }] }

/-- The report item for SKU `A` in `dbEx`: counted 8, baseline 10, movement
-3, expected 7, variance +1 (the worked example of the spec). -/
def itExA : VItem :=
  { sku := "A", product_name := some "ProdA", brand := none, category := none,
    subcategory := none, counted_qty := 8, baseline_qty := 10,
    movement_delta := -3, expected_qty := 7, variance := 1 }

/-! ### Claim C1 -/

/-- C1: for every session and every item of its variance report, `counted`
is the sum of `counted_qty` over the lines of the session's submitted passes
for that SKU (lines of in-progress and voided passes contribute nothing),
`baseline` is the store's inventory-snapshot quantity for the SKU (0 if
absent; the snapshot join is assumed to carry each SKU at most once),
`expected = baseline + movement_delta` and `variance = counted - expected`,
in exact integer arithmetic. -/
theorem c1_variance_fields (db : DB) (session_id : String) (nzo : Bool)
    (sess : CountSession)
    (hs : db.sessions.find? (fun s => s.id == session_id) = some sess)
    (hnd : ((baselineRows db sess.store_id).map Prod.fst).Nodup)
    (it : VItem) (hit : it ∈ reportItems db session_id nzo) :
    it.counted_qty = countedSpec db session_id it.sku ∧
    it.baseline_qty = baselineSpec db sess.store_id it.sku ∧
    it.expected_qty = it.baseline_qty + it.movement_delta ∧
    it.variance = it.counted_qty - it.expected_qty := by
  cases hmv : movementDeltas db sess.store_id (submittedPasses db session_id) with
  | none =>
    exfalso
    unfold reportItems getVariance at hit
    rw [hs] at hit
    simp only [hmv] at hit
    exact absurd hit (List.not_mem_nil it)
  | some mdict =>
    obtain ⟨h1, h2, _, h4, h5, _, _⟩ := mem_reportItems hs hmv hit
    refine ⟨?_, ?_, h4, h5⟩
    · rw [h1, counted_lookup]
    · rw [h2, dictFindD_buildDict_of_nodup hnd]
      rfl

/-- Witness for C1 at `dbEx`: the hypotheses hold and the item for SKU `A`
has the fields the claim requires. -/
theorem c1_witness :
    ((baselineRows dbEx 1).map Prod.fst).Nodup ∧
    itExA ∈ reportItems dbEx "S" false ∧
    (itExA.counted_qty = countedSpec dbEx "S" itExA.sku ∧
     itExA.baseline_qty = baselineSpec dbEx 1 itExA.sku ∧
     itExA.expected_qty = itExA.baseline_qty + itExA.movement_delta ∧
     itExA.variance = itExA.counted_qty - itExA.expected_qty) :=
  ⟨by decide, by decide,
   c1_variance_fields dbEx "S" false
     { id := "S", store_id := 1, status := "in_progress" }
     (by decide) (by decide) itExA (by decide)⟩

/-! ### Claim C2 -/

/-- C2: when the session has at least one submitted pass with a non-null
`submitted_at`, every item's movement delta is the sum of `qty_delta` over
the session store's movements whose `occurred_at` lies in the single
inclusive interval from the minimum `started_at` to the maximum
`submitted_at` of the submitted passes; in particular a movement between
two passes' individual windows but inside this union interval is counted.
The bounds are characterised as: `e` is a `started_at` of a submitted pass
below all of them, `l` is a non-null `submitted_at` above all of them. -/
theorem c2_movement_window (db : DB) (session_id : String) (nzo : Bool)
    (sess : CountSession) (e l : DateTime)
    (hs : db.sessions.find? (fun s => s.id == session_id) = some sess)
    (he1 : e ∈ (submittedPasses db session_id).map (fun p => p.started_at))
    (he2 : ∀ t ∈ (submittedPasses db session_id).map (fun p => p.started_at),
      dtLe e t = true)
    (hl1 : l ∈ (submittedPasses db session_id).filterMap (fun p => p.submitted_at))
    (hl2 : ∀ t ∈ (submittedPasses db session_id).filterMap (fun p => p.submitted_at),
      dtLe t l = true)
    (it : VItem) (hit : it ∈ reportItems db session_id nzo) :
    it.movement_delta = movementSpec db sess.store_id e l it.sku := by
  cases hp : submittedPasses db session_id with
  | nil =>
    rw [hp] at he1
    exact absurd he1 (by simp)
  | cons p ps =>
    rw [hp] at he1 he2 hl1 hl2
    cases hq : (p :: ps).filterMap (fun q => q.submitted_at) with
    | nil =>
      rw [hq] at hl1
      exact absurd hl1 (List.not_mem_nil l)
    | cons t ts =>
      rw [hq] at hl1 hl2
      have hmv : movementDeltas db sess.store_id (submittedPasses db session_id) =
          some (groupSum ((db.movements.filter (fun m =>
            m.store_id == sess.store_id &&
            dtLe (dtFoldMin p.started_at (ps.map (fun q => q.started_at)))
              m.occurred_at &&
            dtLe m.occurred_at (dtFoldMax t ts))).map
            (fun m => (m.sku, m.qty_delta)))) := by
        rw [hp]
        unfold movementDeltas
        simp only [hq]
      obtain ⟨_, _, h3, _, _, _, _⟩ := mem_reportItems hs hmv hit
      have hemin : dtFoldMin p.started_at (ps.map (fun q => q.started_at)) = e := by
        apply dtLe_antisymm
        · rw [List.map_cons] at he1
          rcases List.mem_cons.mp he1 with h | h
          · rw [h]
            exact (dtFoldMin_le p.started_at (ps.map (fun q => q.started_at))).1
          · exact (dtFoldMin_le p.started_at (ps.map (fun q => q.started_at))).2 e h
        · apply he2
          rcases dtFoldMin_mem p.started_at (ps.map (fun q => q.started_at)) with h | h
          · rw [h]; simp
          · simp only [List.map_cons, List.mem_cons]
            exact Or.inr h
      have hlmax : dtFoldMax t ts = l := by
        apply dtLe_antisymm
        · apply hl2
          rcases dtFoldMax_mem t ts with h | h
          · rw [h]; simp
          · exact List.mem_cons_of_mem t h
        · rcases List.mem_cons.mp hl1 with h | h
          · rw [h] at *
            exact (dtFoldMax_ge t ts).1
          · exact (dtFoldMax_ge t ts).2 l h
      rw [h3, hemin, hlmax] at *
      rw [movement_lookup]

/-- Witness for C2 at `dbEx`: the two submitted passes have windows
`[0,10]` and `[20,30]`; the sale at time 15 lies between them but inside
the union `[0,30]`, and is indeed counted in SKU `A`'s movement delta. -/
theorem c2_witness :
    ((⟨0, 0⟩ : DateTime) ∈ (submittedPasses dbEx "S").map (fun p => p.started_at) ∧
     (⟨0, 30⟩ : DateTime) ∈ (submittedPasses dbEx "S").filterMap
       (fun p => p.submitted_at)) ∧
    itExA ∈ reportItems dbEx "S" false ∧
    itExA.movement_delta = movementSpec dbEx 1 ⟨0, 0⟩ ⟨0, 30⟩ itExA.sku ∧
    movementSpec dbEx 1 ⟨0, 0⟩ ⟨0, 30⟩ "A" = -3 :=
  ⟨⟨by decide, by decide⟩, by decide,
   c2_movement_window dbEx "S" false { id := "S", store_id := 1, status := "in_progress" }
     ⟨0, 0⟩ ⟨0, 30⟩ (by decide) (by decide) (by decide) (by decide) (by decide)
     itExA (by decide),
   by decide⟩

/-! ### Claim C9 -/

theorem pairwise_filterMap_of_pairwise {α β : Type} (f : α → Option β)
    {R : β → β → Prop} {S : α → α → Prop}
    (h : ∀ a b x y, S a b → f a = some x → f b = some y → R x y)
    {l : List α} (hl : l.Pairwise S) : (l.filterMap f).Pairwise R := by
  induction hl with
  | nil => simp
  | @cons a l ha hl ih =>
    rw [List.filterMap_cons]
    cases hfa : f a with
    | none => exact ih
    | some x =>
      refine List.pairwise_cons.mpr ⟨?_, ih⟩
      intro y hy
      rcases List.mem_filterMap.mp hy with ⟨b, hb, hfb⟩
      exact h a b x y (ha b hb) hfa hfb

/-- Sorting a SKU-ascending item list by descending absolute variance with
a stable sort yields the report order: strictly descending absolute
variance, ties in ascending SKU order. -/
theorem variance_sort_pairwise {l : List VItem}
    (h : l.Pairwise (fun a b => strLt a.sku b.sku = true)) :
    (stableSortBy (fun a b => decide (|a.variance| > |b.variance|)) l).Pairwise
      (fun a b => |b.variance| < |a.variance| ∨
        (|a.variance| = |b.variance| ∧ strLt a.sku b.sku = true)) := by
  induction l with
  | nil => simp [stableSortBy]
  | cons x xs ih =>
    rw [List.pairwise_cons] at h
    simp only [stableSortBy]
    apply pairwise_insertBy (S := fun a b => strLt a.sku b.sku = true) (ih h.2)
    · intro y hy
      exact h.1 y (mem_stableSortBy.mp hy)
    · intro y hS hlt
      rw [decide_eq_false_iff_not, not_lt] at hlt
      rcases lt_or_eq_of_le hlt with h1 | h1
      · exact Or.inl h1
      · exact Or.inr ⟨h1.symm, hS⟩
    · intro y hlt
      rw [decide_eq_true_eq] at hlt
      exact Or.inl hlt
    · intro y z hS hR hlt
      rw [decide_eq_false_iff_not, not_lt] at hlt
      rcases hR with h1 | h1
      · rcases lt_or_eq_of_le hlt with h2 | h2
        · exact Or.inl (lt_of_lt_of_le h1 (le_of_lt h2))
        · exact Or.inl (h2 ▸ h1)
      · rcases lt_or_eq_of_le hlt with h2 | h2
        · exact Or.inl (lt_of_le_of_lt (le_of_eq h1.1.symm) h2)
        · exact Or.inr ⟨h2.symm.trans h1.1, hS⟩

/-- C9: the items of every variance report are sorted by absolute variance
descending, with ties in ascending (code-point) SKU order — a deterministic
order. -/
theorem c9_report_sorted (db : DB) (session_id : String) (nzo : Bool) :
    (reportItems db session_id nzo).Pairwise (fun a b =>
      |b.variance| < |a.variance| ∨
        (|a.variance| = |b.variance| ∧ strLt a.sku b.sku = true)) := by
  unfold reportItems getVariance
  cases hs : db.sessions.find? (fun s => s.id == session_id) with
  | none => simp
  | some sess =>
    simp only []
    cases hmv : movementDeltas db sess.store_id (submittedPasses db session_id) with
    | none => simp
    | some mdict =>
      simp only []
      apply variance_sort_pairwise
      apply pairwise_filterMap_of_pairwise
        (S := fun a b => strLt a b = true)
      · intro a b x y hab hfa hfb
        split at hfa
        · exact absurd hfa (by simp)
        · split at hfb
          · exact absurd hfb (by simp)
          · injection hfa with hfa
            injection hfb with hfb
            rw [← hfa, ← hfb]
            exact hab
      · exact sortStrings_pairwise (List.nodup_dedup _)

/-! ### Claim C6 -/

/-- A store with one session, one submitted pass holding a single line with
`counted_qty = 0` for a SKU that has no baseline row and no movements. -/
def dbZeroLine : DB :=
  { products := [{ id := 1, sku := "A", cova_sku := none, name := "ProdA",
                   brand := none, category := none, subcategory := none }]
    inventory_items := []
    sessions := [{ id := "S", store_id := 1, status := "in_progress" }]
    passes := [{ id := "P", session_id := "S", location_id := 1, category := none,
                 subcategory := none, started_at := ⟨0, 0⟩,
                 submitted_at := some ⟨0, 1⟩, status := "submitted" }]
    lines := [{ id := "L", count_pass_id := "P", product_id := 1, sku := "A",
                barcode := "A", package_id := none, counted_qty := 0, unit := "each",
                captured_at := ⟨0, 0⟩, captured_by_user_id := 7,
                confidence := "scanned", notes := none }]
    movements := [] }

/-- The all-zero report item produced by `dbZeroLine`. -/
def itZero : VItem :=
  { sku := "A", product_name := some "ProdA", brand := none, category := none,
    subcategory := none, counted_qty := 0, baseline_qty := 0,
    movement_delta := 0, expected_qty := 0, variance := 0 }

/-- Counterexample to C6 as stated: a SKU with zero counted quantity, zero
baseline and zero movement delta does appear in the report (with
`non_zero_only = false`) — a zero-quantity line puts its SKU into the
counted aggregate, hence into the union. -/
theorem c6_counterexample :
    itZero ∈ reportItems dbZeroLine "S" false ∧
    itZero.counted_qty = 0 ∧ itZero.baseline_qty = 0 ∧
    itZero.movement_delta = 0 := by decide

/-- C6 (amended): only SKUs present in the counted aggregate (some line of
a submitted pass of the session bears the SKU) or present in the store's
baseline snapshot enter the report; a SKU whose aggregates are all
numerically zero can still appear, via a zero-quantity line.  With
`non_zero_only = true` no returned item has
`counted = baseline + movement_delta`. -/
theorem c6_union_and_nonzero (db : DB) (session_id : String) (nzo : Bool)
    (sess : CountSession)
    (hs : db.sessions.find? (fun s => s.id == session_id) = some sess)
    (it : VItem) (hit : it ∈ reportItems db session_id nzo) :
    ((∃ ln ∈ db.lines, lineInSubmittedPass db session_id ln = true ∧
        ln.sku = it.sku) ∨
      ∃ r ∈ baselineRows db sess.store_id, r.1 = it.sku) ∧
    (nzo = true → it.counted_qty ≠ it.baseline_qty + it.movement_delta) := by
  cases hmv : movementDeltas db sess.store_id (submittedPasses db session_id) with
  | none =>
    exfalso
    unfold reportItems getVariance at hit
    rw [hs] at hit
    simp only [hmv] at hit
    exact absurd hit (List.not_mem_nil it)
  | some mdict =>
    obtain ⟨_, _, _, h4, h5, hmem, hnz⟩ := mem_reportItems hs hmv hit
    constructor
    · rcases hmem with hm | hm
      · left
        rw [dictKeys_groupSum, List.mem_dedup] at hm
        rcases List.mem_map.mp hm with ⟨row, hrow, hfst⟩
        unfold countedRows at hrow
        rcases List.mem_map.mp hrow with ⟨ln, hln, hpair⟩
        refine ⟨ln, List.mem_of_mem_filter hln, (List.mem_filter.mp hln).2, ?_⟩
        rw [← hfst, ← hpair]
      · right
        rw [mem_dictKeys_buildDict] at hm
        rcases List.mem_map.mp hm with ⟨r, hr, hfst⟩
        exact ⟨r, hr, hfst⟩
    · intro hnzo heq
      apply hnz hnzo
      rw [h5, h4, ← heq]
      ring

/-- Witness for the amended C6 at `dbEx` with `non_zero_only = true`. -/
theorem c6_witness :
    itExA ∈ reportItems dbEx "S" true ∧
    ((∃ ln ∈ dbEx.lines, lineInSubmittedPass dbEx "S" ln = true ∧
        ln.sku = itExA.sku) ∨
      ∃ r ∈ baselineRows dbEx 1, r.1 = itExA.sku) ∧
    itExA.counted_qty ≠ itExA.baseline_qty + itExA.movement_delta :=
  ⟨by decide,
   (c6_union_and_nonzero dbEx "S" true
     { id := "S", store_id := 1, status := "in_progress" }
     (by decide) itExA (by decide)).1,
   (c6_union_and_nonzero dbEx "S" true
     { id := "S", store_id := 1, status := "in_progress" }
     (by decide) itExA (by decide)).2 rfl⟩

/-! ### Claim C5 -/

/-- A session whose set of submitted passes is non-empty but contains no
pass with a non-null `submitted_at`. -/
def dbNullSubmit : DB :=
  { products := []
    inventory_items := []
    sessions := [{ id := "S", store_id := 1, status := "in_progress" }]
    passes := [{ id := "P", session_id := "S", location_id := 1, category := none,
                 subcategory := none, started_at := ⟨0, 0⟩,
                 submitted_at := none, status := "submitted" }]
    lines := []
    movements := [] }

/-- C5 fails on the code: with a submitted pass whose `submitted_at` is
null, `get_variance` evaluates `max()` over an empty sequence, which raises
an unhandled `ValueError` instead of skipping the movement lookup as the
spec prescribes (the dead `if latest:` guard in the source shows that skip
was the intent). -/
theorem c5_max_of_empty_crash :
    getVariance dbNullSubmit "S" false = Except.error VErr.maxOfEmptySequence := rfl

/-! ### Claim C7 -/

/-- A pass scoped to category `Flower` and subcategory `Gummies`, and a
product with no category but subcategory `Resin`. -/
def dbScopeSub : DB :=
  { products := [{ id := 1, sku := "A", cova_sku := none, name := "ProdA",
                   brand := none, category := none, subcategory := some "Resin" }]
    inventory_items := []
    sessions := [{ id := "S", store_id := 1, status := "in_progress" }]
    passes := [{ id := "P", session_id := "S", location_id := 1,
                 category := some "Flower", subcategory := some "Gummies",
                 started_at := ⟨0, 0⟩, submitted_at := none,
                 status := "in_progress" }]
    lines := []
    movements := [] }

/-- A pass scoped to category `Flower`, and a product categorised
`Edibles`. -/
def dbScopeCat : DB :=
  { products := [{ id := 1, sku := "A", cova_sku := none, name := "ProdA",
                   brand := none, category := some "Edibles", subcategory := none }]
    inventory_items := []
    sessions := [{ id := "S", store_id := 1, status := "in_progress" }]
    passes := [{ id := "P", session_id := "S", location_id := 1,
                 category := some "Flower", subcategory := none,
                 started_at := ⟨0, 0⟩, submitted_at := none,
                 status := "in_progress" }]
    lines := []
    movements := [] }

/-- A scoped pass and a product carrying neither category nor
subcategory. -/
def dbScopeFree : DB :=
  { products := [{ id := 1, sku := "A", cova_sku := none, name := "ProdA",
                   brand := none, category := none, subcategory := none }]
    inventory_items := []
    sessions := [{ id := "S", store_id := 1, status := "in_progress" }]
    passes := [{ id := "P", session_id := "S", location_id := 1,
                 category := some "Flower", subcategory := some "Gummies",
                 started_at := ⟨0, 0⟩, submitted_at := none,
                 status := "in_progress" }]
    lines := []
    movements := [] }

/-- Counterexample to C7 as stated: a product with *no category* is not
always accepted — when the pass also carries a subcategory scope and the
product's subcategory is present and differs, `add_line` rejects it with a
subcategory ScopeMismatch. -/
theorem c7_counterexample :
    (addLine dbScopeSub ⟨0, 5⟩ 7 "P" "A" 1 none "scanned" none "L1").resp =
      Except.error (ApiErr.scopeMismatch "subcategory" "Gummies" "Resin") ∧
    (addLine dbScopeSub ⟨0, 5⟩ 7 "P" "A" 1 none "scanned" none "L1").db =
      dbScopeSub :=
  ⟨rfl, rfl⟩

/-- C7 (amended): on an in-progress pass carrying a category
(respectively subcategory) scope, a resolved product whose category
(respectively subcategory) is present and differs case-insensitively fails
with a ScopeMismatch carrying the expected and actual values (for the
subcategory check, provided the category check passed first), and the store
is unchanged; a product with neither category nor subcategory is never
rejected by the scope checks. -/
theorem c7_scope_enforcement :
    (∀ (db : DB) (now : DateTime) (uid : Nat) (pid barcode : String) (qty : Int)
       (pkg : Option String) (conf : String) (notes : Option String)
       (newId : String) (cp : CountPass) (prod : Product) (pc prc : String),
       db.passes.find? (fun p => p.id == pid) = some cp →
       cp.status = "in_progress" →
       barcode ≠ "" →
       findProduct db barcode = some prod →
       cp.category = some pc → prod.category = some prc →
       strLower prc ≠ strLower pc →
       addLine db now uid pid barcode qty pkg conf notes newId =
         ⟨db, Except.error (ApiErr.scopeMismatch "category" pc prc)⟩) ∧
    (∀ (db : DB) (now : DateTime) (uid : Nat) (pid barcode : String) (qty : Int)
       (pkg : Option String) (conf : String) (notes : Option String)
       (newId : String) (cp : CountPass) (prod : Product) (psc prsc : String),
       db.passes.find? (fun p => p.id == pid) = some cp →
       cp.status = "in_progress" →
       barcode ≠ "" →
       findProduct db barcode = some prod →
       catMismatch cp prod = none →
       cp.subcategory = some psc → prod.subcategory = some prsc →
       strLower prsc ≠ strLower psc →
       addLine db now uid pid barcode qty pkg conf notes newId =
         ⟨db, Except.error (ApiErr.scopeMismatch "subcategory" psc prsc)⟩) ∧
    (∀ (db : DB) (now : DateTime) (uid : Nat) (pid barcode : String) (qty : Int)
       (pkg : Option String) (conf : String) (notes : Option String)
       (newId : String) (cp : CountPass) (prod : Product),
       db.passes.find? (fun p => p.id == pid) = some cp →
       cp.status = "in_progress" →
       barcode ≠ "" →
       findProduct db barcode = some prod →
       prod.category = none → prod.subcategory = none →
       ∃ r, (addLine db now uid pid barcode qty pkg conf notes newId).resp =
         Except.ok r) := by
  refine ⟨?_, ?_, ?_⟩
  · intro db now uid pid barcode qty pkg conf notes newId cp prod pc prc
      hfind hstatus hbar hprod hpc hprc hne
    have hcat : catMismatch cp prod = some (pc, prc) := by
      unfold catMismatch
      rw [hpc, hprc]
      simp [hne]
    unfold addLine
    simp [hfind, hstatus, hbar, hprod, hcat]
  · intro db now uid pid barcode qty pkg conf notes newId cp prod psc prsc
      hfind hstatus hbar hprod hcat hpsc hprsc hne
    have hsub : subMismatch cp prod = some (psc, prsc) := by
      unfold subMismatch
      rw [hpsc, hprsc]
      simp [hne]
    unfold addLine
    simp [hfind, hstatus, hbar, hprod, hcat, hsub]
  · intro db now uid pid barcode qty pkg conf notes newId cp prod
      hfind hstatus hbar hprod hcatn hsubn
    have hcat : catMismatch cp prod = none := by
      unfold catMismatch
      rw [hcatn]
      cases cp.category <;> rfl
    have hsub : subMismatch cp prod = none := by
      unfold subMismatch
      rw [hsubn]
      cases cp.subcategory <;> rfl
    unfold addLine
    cases hline : db.lines.find?
        (fun l => l.count_pass_id == pid && l.sku == prod.sku) with
    | some existing =>
      refine ⟨{ line := incLine qty now uid notes existing
                incremented := true
                previous_qty :=
                  some ((incLine qty now uid notes existing).counted_qty - qty) }, ?_⟩
      simp [hfind, hstatus, hbar, hprod, hcat, hsub, hline]
    | none =>
      refine ⟨{ line := newCountLine pid prod barcode qty pkg now uid conf notes newId
                incremented := false
                previous_qty := none }, ?_⟩
      simp [hfind, hstatus, hbar, hprod, hcat, hsub, hline]

/-- Witness for the amended C7: the category mismatch (`Flower` vs
`Edibles`), the subcategory mismatch reached through a product with no
category, and the acceptance of a product with neither field. -/
theorem c7_witness :
    (addLine dbScopeCat ⟨0, 5⟩ 7 "P" "A" 1 none "scanned" none "L1" =
      ⟨dbScopeCat, Except.error (ApiErr.scopeMismatch "category" "Flower" "Edibles")⟩) ∧
    (addLine dbScopeSub ⟨0, 5⟩ 7 "P" "A" 1 none "scanned" none "L1" =
      ⟨dbScopeSub, Except.error (ApiErr.scopeMismatch "subcategory" "Gummies" "Resin")⟩) ∧
    (∃ r, (addLine dbScopeFree ⟨0, 5⟩ 7 "P" "A" 1 none "scanned" none "L1").resp =
      Except.ok r) :=
  ⟨c7_scope_enforcement.1 dbScopeCat ⟨0, 5⟩ 7 "P" "A" 1 none "scanned" none "L1"
     { id := "P", session_id := "S", location_id := 1, category := some "Flower",
       subcategory := none, started_at := ⟨0, 0⟩, submitted_at := none,
       status := "in_progress" }
     { id := 1, sku := "A", cova_sku := none, name := "ProdA", brand := none,
       category := some "Edibles", subcategory := none }
     "Flower" "Edibles" rfl rfl (by decide) rfl rfl rfl (by decide),
   c7_scope_enforcement.2.1 dbScopeSub ⟨0, 5⟩ 7 "P" "A" 1 none "scanned" none "L1"
     { id := "P", session_id := "S", location_id := 1, category := some "Flower",
       subcategory := some "Gummies", started_at := ⟨0, 0⟩, submitted_at := none,
       status := "in_progress" }
     { id := 1, sku := "A", cova_sku := none, name := "ProdA", brand := none,
       category := none, subcategory := some "Resin" }
     "Gummies" "Resin" rfl rfl (by decide) rfl rfl rfl rfl (by decide),
   c7_scope_enforcement.2.2 dbScopeFree ⟨0, 5⟩ 7 "P" "A" 1 none "scanned" none "L1"
     { id := "P", session_id := "S", location_id := 1, category := some "Flower",
       subcategory := some "Gummies", started_at := ⟨0, 0⟩, submitted_at := none,
       status := "in_progress" }
     { id := 1, sku := "A", cova_sku := none, name := "ProdA", brand := none,
       category := none, subcategory := none }
     rfl rfl (by decide) rfl rfl rfl⟩

/-! ### Claim C8 -/

/-- C8: `record` (`add_line`), `correct` (`update_line`) and `remove`
(`delete_line`) fail with an InvalidState error and leave the store
unchanged whenever the owning pass is not `in_progress`; submitting a
session fails (store unchanged) while some pass of the session is
`in_progress`, and succeeds once no pass is `in_progress` (voided and
submitted passes do not block). -/
theorem c8_lifecycle_guards :
    (∀ (db : DB) (now : DateTime) (uid : Nat) (pid barcode : String) (qty : Int)
       (pkg : Option String) (conf : String) (notes : Option String)
       (newId : String) (cp : CountPass),
       db.passes.find? (fun p => p.id == pid) = some cp →
       cp.status ≠ "in_progress" →
       addLine db now uid pid barcode qty pkg conf notes newId =
         ⟨db, Except.error (ApiErr.invalidState cp.status)⟩) ∧
    (∀ (db : DB) (now : DateTime) (uid : Nat) (lid : String) (qty? : Option Int)
       (notes? : Option (Option String)) (line : CountLine) (cp : CountPass),
       db.lines.find? (fun l => l.id == lid) = some line →
       db.passes.find? (fun p => p.id == line.count_pass_id) = some cp →
       cp.status ≠ "in_progress" →
       updateLine db now uid lid qty? notes? =
         ⟨db, Except.error (ApiErr.invalidState cp.status)⟩) ∧
    (∀ (db : DB) (lid : String) (line : CountLine) (cp : CountPass),
       db.lines.find? (fun l => l.id == lid) = some line →
       db.passes.find? (fun p => p.id == line.count_pass_id) = some cp →
       cp.status ≠ "in_progress" →
       deleteLine db lid = ⟨db, Except.error (ApiErr.invalidState cp.status)⟩) ∧
    (∀ (db : DB) (sid : String) (sess : CountSession) (p : CountPass),
       db.sessions.find? (fun s => s.id == sid) = some sess →
       sess.status = "in_progress" →
       p ∈ db.passes → p.session_id = sid → p.status = "in_progress" →
       submitSession db sid = ⟨db, Except.error (ApiErr.passesInProgress
         ((db.passes.filter (fun q => q.session_id == sid &&
           q.status == "in_progress")).length))⟩) ∧
    (∀ (db : DB) (sid : String) (sess : CountSession),
       db.sessions.find? (fun s => s.id == sid) = some sess →
       sess.status = "in_progress" →
       (∀ p ∈ db.passes, p.session_id = sid → p.status ≠ "in_progress") →
       (submitSession db sid).resp = Except.ok { sess with status := "submitted" }) := by
  refine ⟨?_, ?_, ?_, ?_, ?_⟩
  · intro db now uid pid barcode qty pkg conf notes newId cp hfind hstatus
    unfold addLine
    simp [hfind, hstatus]
  · intro db now uid lid qty? notes? line cp hline hfind hstatus
    unfold updateLine
    simp [hline, hfind, hstatus]
  · intro db lid line cp hline hfind hstatus
    unfold deleteLine
    simp [hline, hfind, hstatus]
  · intro db sid sess p hs hsess hp hpsid hpstat
    have hmem : p ∈ db.passes.filter (fun q => q.session_id == sid &&
        q.status == "in_progress") :=
      List.mem_filter.mpr ⟨hp, by simp [hpsid, hpstat]⟩
    have hpos : 0 < (db.passes.filter (fun q => q.session_id == sid &&
        q.status == "in_progress")).length :=
      List.length_pos.mpr (List.ne_nil_of_mem hmem)
    unfold submitSession
    simp only [hs]
    rw [if_neg (by simp [hsess])]
    rw [if_pos hpos]
  · intro db sid sess hs hsess hnone
    have hfil : db.passes.filter (fun q => q.session_id == sid &&
        q.status == "in_progress") = [] := by
      apply List.filter_eq_nil_iff.mpr
      intro q hq
      simp only [Bool.and_eq_true, beq_iff_eq, not_and]
      exact fun h1 => hnone q hq h1
    unfold submitSession
    simp only [hs]
    rw [if_neg (by simp [hsess])]
    rw [hfil]
    simp

/-- Witness for C8: `add_line`/`update_line`/`delete_line` rejected on the
submitted pass `P1` of `dbEx`; session submission rejected while the pass
of `dbScopeSub` is open; session submission of `dbEx` (passes submitted,
submitted, voided) succeeds. -/
theorem c8_witness :
    (addLine dbEx ⟨0, 40⟩ 7 "P1" "A" 1 none "scanned" none "L9" =
      ⟨dbEx, Except.error (ApiErr.invalidState "submitted")⟩) ∧
    (updateLine dbEx ⟨0, 40⟩ 7 "L1" (some 4) none =
      ⟨dbEx, Except.error (ApiErr.invalidState "submitted")⟩) ∧
    (deleteLine dbEx "L1" =
      ⟨dbEx, Except.error (ApiErr.invalidState "submitted")⟩) ∧
    (submitSession dbScopeSub "S" =
      ⟨dbScopeSub, Except.error (ApiErr.passesInProgress 1)⟩) ∧
    ((submitSession dbEx "S").resp =
      Except.ok { id := "S", store_id := 1, status := "submitted" }) :=
  ⟨c8_lifecycle_guards.1 dbEx ⟨0, 40⟩ 7 "P1" "A" 1 none "scanned" none "L9"
     { id := "P1", session_id := "S", location_id := 1, category := none,
       subcategory := none, started_at := ⟨0, 0⟩, submitted_at := some ⟨0, 10⟩,
       status := "submitted" } rfl (by decide),
   c8_lifecycle_guards.2.1 dbEx ⟨0, 40⟩ 7 "L1" (some 4) none
     { id := "L1", count_pass_id := "P1", product_id := 1, sku := "A",
       barcode := "A", package_id := none, counted_qty := 8, unit := "each",
       captured_at := ⟨0, 5⟩, captured_by_user_id := 7,
       confidence := "scanned", notes := none }
     { id := "P1", session_id := "S", location_id := 1, category := none,
       subcategory := none, started_at := ⟨0, 0⟩, submitted_at := some ⟨0, 10⟩,
       status := "submitted" } rfl rfl (by decide),
   c8_lifecycle_guards.2.2.1 dbEx "L1"
     { id := "L1", count_pass_id := "P1", product_id := 1, sku := "A",
       barcode := "A", package_id := none, counted_qty := 8, unit := "each",
       captured_at := ⟨0, 5⟩, captured_by_user_id := 7,
       confidence := "scanned", notes := none }
     { id := "P1", session_id := "S", location_id := 1, category := none,
       subcategory := none, started_at := ⟨0, 0⟩, submitted_at := some ⟨0, 10⟩,
       status := "submitted" } rfl rfl (by decide),
   c8_lifecycle_guards.2.2.2.1 dbScopeSub "S"
     { id := "S", store_id := 1, status := "in_progress" }
     { id := "P", session_id := "S", location_id := 1,
       category := some "Flower", subcategory := some "Gummies",
       started_at := ⟨0, 0⟩, submitted_at := none, status := "in_progress" }
     rfl rfl (by decide) rfl rfl,
   c8_lifecycle_guards.2.2.2.2 dbEx "S"
     { id := "S", store_id := 1, status := "in_progress" }
     rfl rfl (by decide)⟩

/-! ### Claims C3 and C10: helper lemmas about line updates -/

/-- The at-most-one-line-per-(pass, SKU) invariant over the whole store. -/
def linesKeyUnique (db : DB) : Prop :=
  db.lines.Pairwise (fun a b =>
    ¬(a.count_pass_id = b.count_pass_id ∧ a.sku = b.sku))

theorem length_updateFirstLine (p : CountLine → Bool) (f : CountLine → CountLine)
    (ls : List CountLine) : (updateFirstLine p f ls).length = ls.length := by
  induction ls with
  | nil => rfl
  | cons l ls ih =>
    unfold updateFirstLine
    by_cases hp : p l
    · rw [if_pos hp]; simp
    · rw [if_neg hp]; simp [ih]

theorem mem_updateFirstLine {p : CountLine → Bool} {f : CountLine → CountLine}
    (hf1 : ∀ l, (f l).count_pass_id = l.count_pass_id)
    (hf2 : ∀ l, (f l).sku = l.sku) {ls : List CountLine} {b : CountLine}
    (hb : b ∈ updateFirstLine p f ls) :
    ∃ b0 ∈ ls, b.count_pass_id = b0.count_pass_id ∧ b.sku = b0.sku := by
  induction ls with
  | nil => cases hb
  | cons l ls ih =>
    unfold updateFirstLine at hb
    by_cases hp : p l
    · rw [if_pos hp] at hb
      rcases List.mem_cons.mp hb with h | h
      · exact ⟨l, List.mem_cons_self l ls, by rw [h]; exact ⟨hf1 l, hf2 l⟩⟩
      · exact ⟨b, List.mem_cons_of_mem l h, rfl, rfl⟩
    · rw [if_neg hp] at hb
      rcases List.mem_cons.mp hb with h | h
      · exact ⟨l, List.mem_cons_self l ls, by rw [h]; exact ⟨rfl, rfl⟩⟩
      · rcases ih h with ⟨b0, hb0, hkeys⟩
        exact ⟨b0, List.mem_cons_of_mem l hb0, hkeys⟩

theorem pairwise_updateFirstLine (p : CountLine → Bool) (f : CountLine → CountLine)
    (hf1 : ∀ l, (f l).count_pass_id = l.count_pass_id)
    (hf2 : ∀ l, (f l).sku = l.sku) {ls : List CountLine}
    (h : ls.Pairwise (fun a b =>
      ¬(a.count_pass_id = b.count_pass_id ∧ a.sku = b.sku))) :
    (updateFirstLine p f ls).Pairwise (fun a b =>
      ¬(a.count_pass_id = b.count_pass_id ∧ a.sku = b.sku)) := by
  induction ls with
  | nil => simp [updateFirstLine]
  | cons l ls ih =>
    rw [List.pairwise_cons] at h
    unfold updateFirstLine
    by_cases hp : p l
    · rw [if_pos hp]
      refine List.pairwise_cons.mpr ⟨?_, h.2⟩
      intro b hb
      rw [hf1 l, hf2 l]
      exact h.1 b hb
    · rw [if_neg hp]
      refine List.pairwise_cons.mpr ⟨?_, ih h.2⟩
      intro b hb
      rcases mem_updateFirstLine hf1 hf2 hb with ⟨b0, hb0, hk1, hk2⟩
      rw [hk1, hk2]
      exact h.1 b0 hb0

theorem updateFirstLine_cons (p : CountLine → Bool) (f : CountLine → CountLine)
    (l : CountLine) (ls : List CountLine) :
    updateFirstLine p f (l :: ls) =
      if p l then f l :: ls else l :: updateFirstLine p f ls := rfl

theorem updateFirstLine_append_of_none {p : CountLine → Bool}
    {f : CountLine → CountLine} {ls : List CountLine}
    (h : ∀ l ∈ ls, p l = false) (l2 : List CountLine) :
    updateFirstLine p f (ls ++ l2) = ls ++ updateFirstLine p f l2 := by
  induction ls with
  | nil => rfl
  | cons l ls ih =>
    rw [List.cons_append, updateFirstLine_cons]
    rw [if_neg (by rw [h l (List.mem_cons_self l ls)]; exact Bool.false_ne_true)]
    rw [ih (fun x hx => h x (List.mem_cons_of_mem l hx)), List.cons_append]

theorem incLine_count_pass_id (qty : Int) (now : DateTime) (uid : Nat)
    (notes : Option String) (l : CountLine) :
    (incLine qty now uid notes l).count_pass_id = l.count_pass_id := rfl

theorem incLine_sku (qty : Int) (now : DateTime) (uid : Nat)
    (notes : Option String) (l : CountLine) :
    (incLine qty now uid notes l).sku = l.sku := rfl

/-- C3: the at-most-one-line-per-(pass, SKU) invariant is preserved by
`add_line`, `update_line` and `delete_line`; when the resolved product's SKU
already has a line in the open pass, `add_line` increments that line by the
given quantity instead of creating a second one, reports
`incremented = true` with `previous_qty` equal to the pre-increment
quantity, and keeps the number of lines unchanged; and recording the same
SKU twice in one open pass (starting from no line for it) yields exactly
one line for the (pass, SKU) whose quantity is the sum of both. -/
theorem c3_one_line_per_sku :
    (∀ (db : DB) (now : DateTime) (uid : Nat) (pid barcode : String) (qty : Int)
       (pkg : Option String) (conf : String) (notes : Option String)
       (newId : String),
       linesKeyUnique db →
       linesKeyUnique (addLine db now uid pid barcode qty pkg conf notes newId).db) ∧
    (∀ (db : DB) (now : DateTime) (uid : Nat) (lid : String) (qty? : Option Int)
       (notes? : Option (Option String)),
       linesKeyUnique db →
       linesKeyUnique (updateLine db now uid lid qty? notes?).db) ∧
    (∀ (db : DB) (lid : String),
       linesKeyUnique db → linesKeyUnique (deleteLine db lid).db) ∧
    (∀ (db : DB) (now : DateTime) (uid : Nat) (pid barcode : String) (qty : Int)
       (pkg : Option String) (conf : String) (notes : Option String)
       (newId : String) (cp : CountPass) (prod : Product) (e : CountLine),
       db.passes.find? (fun p => p.id == pid) = some cp →
       cp.status = "in_progress" →
       barcode ≠ "" →
       findProduct db barcode = some prod →
       catMismatch cp prod = none →
       subMismatch cp prod = none →
       db.lines.find? (fun l => l.count_pass_id == pid && l.sku == prod.sku) =
         some e →
       (addLine db now uid pid barcode qty pkg conf notes newId).resp =
         Except.ok { line := incLine qty now uid notes e, incremented := true,
                     previous_qty := some e.counted_qty } ∧
       (addLine db now uid pid barcode qty pkg conf notes newId).db.lines.length =
         db.lines.length) ∧
    (∀ (db : DB) (now1 now2 : DateTime) (uid1 uid2 : Nat) (pid b1 b2 : String)
       (q1 q2 : Int) (pkg1 pkg2 : Option String) (conf1 conf2 : String)
       (notes1 notes2 : Option String) (id1 id2 : String)
       (cp : CountPass) (prod : Product),
       db.passes.find? (fun p => p.id == pid) = some cp →
       cp.status = "in_progress" →
       b1 ≠ "" → b2 ≠ "" →
       findProduct db b1 = some prod →
       findProduct db b2 = some prod →
       catMismatch cp prod = none →
       subMismatch cp prod = none →
       db.lines.find? (fun l => l.count_pass_id == pid && l.sku == prod.sku) =
         none →
       (((addLine (addLine db now1 uid1 pid b1 q1 pkg1 conf1 notes1 id1).db
           now2 uid2 pid b2 q2 pkg2 conf2 notes2 id2).db.lines.filter
         (fun l => l.count_pass_id == pid && l.sku == prod.sku)).map
         (fun l => l.counted_qty)) = [q1 + q2]) := by
  have hkeyfalse : ∀ (db : DB) (pid : String) (prod : Product),
      db.lines.find? (fun l => l.count_pass_id == pid && l.sku == prod.sku) =
        none →
      ∀ l ∈ db.lines,
        (l.count_pass_id == pid && l.sku == prod.sku) = false := by
    intro db pid prod hex l hl
    have := List.find?_eq_none.mp hex l hl
    exact Bool.not_eq_true _ ▸ (by simpa using this)
  refine ⟨?_, ?_, ?_, ?_, ?_⟩
  · intro db now uid pid barcode qty pkg conf notes newId hinv
    cases hcp : db.passes.find? (fun p => p.id == pid) with
    | none => unfold addLine; simp only [hcp]; exact hinv
    | some cp =>
      by_cases h1 : cp.status ≠ "in_progress"
      · unfold addLine; simp only [hcp, if_pos h1]; exact hinv
      · by_cases h2 : barcode = ""
        · unfold addLine; simp only [hcp, if_neg h1, if_pos h2]; exact hinv
        · cases hprod : findProduct db barcode with
          | none =>
            unfold addLine; simp only [hcp, if_neg h1, if_neg h2, hprod]
            exact hinv
          | some prod =>
            cases hcat : catMismatch cp prod with
            | some eg =>
              unfold addLine
              simp only [hcp, if_neg h1, if_neg h2, hprod, hcat]
              exact hinv
            | none =>
              cases hsub : subMismatch cp prod with
              | some eg =>
                unfold addLine
                simp only [hcp, if_neg h1, if_neg h2, hprod, hcat, hsub]
                exact hinv
              | none =>
                cases hex : db.lines.find?
                    (fun l => l.count_pass_id == pid && l.sku == prod.sku) with
                | some e =>
                  unfold addLine
                  simp only [hcp, if_neg h1, if_neg h2, hprod, hcat, hsub, hex]
                  unfold linesKeyUnique
                  apply pairwise_updateFirstLine
                  · intro l; rfl
                  · intro l; rfl
                  · exact hinv
                | none =>
                  unfold addLine
                  simp only [hcp, if_neg h1, if_neg h2, hprod, hcat, hsub, hex]
                  unfold linesKeyUnique
                  rw [List.pairwise_append]
                  refine ⟨hinv, by simp, ?_⟩
                  intro a ha b hb hk
                  rw [List.mem_singleton] at hb
                  have hfalse := hkeyfalse db pid prod hex a ha
                  rw [Bool.and_eq_false_iff] at hfalse
                  rcases hfalse with hf | hf
                  · rw [beq_eq_false_iff_ne] at hf
                    exact hf (by rw [hk.1, hb]; rfl)
                  · rw [beq_eq_false_iff_ne] at hf
                    exact hf (by rw [hk.2, hb]; rfl)
  · intro db now uid lid qty? notes? hinv
    cases hline : db.lines.find? (fun l => l.id == lid) with
    | none => unfold updateLine; simp only [hline]; exact hinv
    | some line =>
      cases hcp : db.passes.find? (fun p => p.id == line.count_pass_id) with
      | none => unfold updateLine; simp only [hline, hcp]; exact hinv
      | some cp =>
        by_cases h1 : cp.status ≠ "in_progress"
        · unfold updateLine; simp only [hline, hcp, if_pos h1]; exact hinv
        · unfold updateLine
          simp only [hline, hcp, if_neg h1]
          unfold linesKeyUnique
          apply pairwise_updateFirstLine
          · intro l; rfl
          · intro l; rfl
          · exact hinv
  · intro db lid hinv
    cases hline : db.lines.find? (fun l => l.id == lid) with
    | none => unfold deleteLine; simp only [hline]; exact hinv
    | some line =>
      cases hcp : db.passes.find? (fun p => p.id == line.count_pass_id) with
      | none => unfold deleteLine; simp only [hline, hcp]; exact hinv
      | some cp =>
        by_cases h1 : cp.status ≠ "in_progress"
        · unfold deleteLine; simp only [hline, hcp, if_pos h1]; exact hinv
        · unfold deleteLine
          simp only [hline, hcp, if_neg h1]
          exact List.Pairwise.sublist (List.eraseP_sublist db.lines) hinv
  · intro db now uid pid barcode qty pkg conf notes newId cp prod e
      hcp h1 h2 hprod hcat hsub hex
    have h1n : ¬(cp.status ≠ "in_progress") := fun hk => hk h1
    unfold addLine
    simp only [hcp, if_neg h1n, if_neg h2, hprod, hcat, hsub, hex]
    constructor
    · simp [incLine]
    · simp [length_updateFirstLine]
  · intro db now1 now2 uid1 uid2 pid b1 b2 q1 q2 pkg1 pkg2 conf1 conf2
      notes1 notes2 id1 id2 cp prod hcp h1 hb1 hb2 hprod1 hprod2 hcat hsub hex
    have h1n : ¬(cp.status ≠ "in_progress") := fun hk => hk h1
    have hfalse := hkeyfalse db pid prod hex
    have hdb1 : (addLine db now1 uid1 pid b1 q1 pkg1 conf1 notes1 id1).db =
        { db with lines := db.lines ++
            [newCountLine pid prod b1 q1 pkg1 now1 uid1 conf1 notes1 id1] } := by
      unfold addLine
      simp only [hcp, if_neg h1n, if_neg hb1, hprod1, hcat, hsub, hex]
    rw [hdb1]
    unfold addLine
    have hkeynew : (((newCountLine pid prod b1 q1 pkg1 now1 uid1 conf1 notes1
        id1).count_pass_id == pid) &&
        ((newCountLine pid prod b1 q1 pkg1 now1 uid1 conf1 notes1 id1).sku ==
          prod.sku)) = true := by
      simp [newCountLine]
    have hfind2 : (db.lines ++
        [newCountLine pid prod b1 q1 pkg1 now1 uid1 conf1 notes1 id1]).find?
        (fun l => l.count_pass_id == pid && l.sku == prod.sku) =
        some (newCountLine pid prod b1 q1 pkg1 now1 uid1 conf1 notes1 id1) := by
      rw [List.find?_append, hex]
      simp [List.find?, hkeynew]
    have hprod2m : findProduct { db with lines := db.lines ++
        [newCountLine pid prod b1 q1 pkg1 now1 uid1 conf1 notes1 id1] } b2 =
        some prod := hprod2
    simp only [hcp, if_neg h1n, if_neg hb2, hprod2m, hcat, hsub, hfind2]
    rw [updateFirstLine_append_of_none hfalse]
    rw [updateFirstLine_cons, if_pos hkeynew]
    rw [List.filter_append]
    rw [List.filter_eq_nil_iff.mpr (by
      intro l hl
      rw [hfalse l hl]
      exact Bool.false_ne_true)]
    simp [incLine, newCountLine]

/-- An existing line: SKU `A` counted 3 times in the open pass `P`. -/
def lineL : CountLine :=
  { id := "L", count_pass_id := "P", product_id := 1, sku := "A",
    barcode := "A", package_id := some "LOT-1", counted_qty := 3,
    unit := "each", captured_at := ⟨0, 1⟩, captured_by_user_id := 7,
    confidence := "scanned", notes := none }

/-- A store with one open (in-progress) pass already holding `lineL`;
product 1 answers to both its SKU `A` and its Cova SKU `CA`. -/
def dbOpen : DB :=
  { products := [{ id := 1, sku := "A", cova_sku := some "CA", name := "ProdA",
                   brand := none, category := none, subcategory := none }]
    inventory_items := []
    sessions := [{ id := "S", store_id := 1, status := "in_progress" }]
    passes := [{ id := "P", session_id := "S", location_id := 1, category := none,
                 subcategory := none, started_at := ⟨0, 0⟩,
                 submitted_at := none, status := "in_progress" }]
    lines := [lineL]
    movements := [] }

/-- Copy of `dbOpen` without any lines yet. -/
def dbOpenEmpty : DB :=
  { dbOpen with lines := [] }

/-- Witness for C3 at `dbOpen`: scanning the Cova SKU `CA` of product `A`
increments `lineL` (previous quantity 3, one line before and after), the
invariant is preserved by all three operations, and recording SKU `A` twice
(quantities 2 then 5, the second time via `CA`) in the empty open pass
leaves exactly one line for (P, A) counting 7. -/
theorem c3_witness :
    (linesKeyUnique dbOpen ∧
     linesKeyUnique (addLine dbOpen ⟨0, 2⟩ 8 "P" "CA" 2 none "scanned" none "L2").db ∧
     linesKeyUnique (updateLine dbOpen ⟨0, 3⟩ 8 "L" (some 5) none).db ∧
     linesKeyUnique (deleteLine dbOpen "L").db) ∧
    ((addLine dbOpen ⟨0, 2⟩ 8 "P" "CA" 2 none "scanned" none "L2").resp =
       Except.ok { line := incLine 2 ⟨0, 2⟩ 8 none lineL, incremented := true,
                   previous_qty := some 3 } ∧
     (addLine dbOpen ⟨0, 2⟩ 8 "P" "CA" 2 none "scanned" none "L2").db.lines.length =
       dbOpen.lines.length) ∧
    ((((addLine (addLine dbOpenEmpty ⟨0, 1⟩ 7 "P" "A" 2 none "scanned" none "L1").db
        ⟨0, 2⟩ 8 "P" "CA" 5 none "scanned" none "L2").db.lines.filter
        (fun l => l.count_pass_id == "P" && l.sku == "A")).map
        (fun l => l.counted_qty)) = [2 + 5]) :=
  ⟨⟨by simp [linesKeyUnique, dbOpen, lineL],
    c3_one_line_per_sku.1 dbOpen ⟨0, 2⟩ 8 "P" "CA" 2 none "scanned" none "L2"
      (by simp [linesKeyUnique, dbOpen, lineL]),
    c3_one_line_per_sku.2.1 dbOpen ⟨0, 3⟩ 8 "L" (some 5) none
      (by simp [linesKeyUnique, dbOpen, lineL]),
    c3_one_line_per_sku.2.2.1 dbOpen "L" (by simp [linesKeyUnique, dbOpen, lineL])⟩,
   c3_one_line_per_sku.2.2.2.1 dbOpen ⟨0, 2⟩ 8 "P" "CA" 2 none "scanned" none "L2"
     { id := "P", session_id := "S", location_id := 1, category := none,
       subcategory := none, started_at := ⟨0, 0⟩, submitted_at := none,
       status := "in_progress" }
     { id := 1, sku := "A", cova_sku := some "CA", name := "ProdA",
       brand := none, category := none, subcategory := none }
     lineL rfl rfl (by decide) rfl rfl rfl rfl,
   c3_one_line_per_sku.2.2.2.2 dbOpenEmpty ⟨0, 1⟩ ⟨0, 2⟩ 7 8 "P" "A" "CA" 2 5
     none none "scanned" "scanned" none none "L1" "L2"
     { id := "P", session_id := "S", location_id := 1, category := none,
       subcategory := none, started_at := ⟨0, 0⟩, submitted_at := none,
       status := "in_progress" }
     { id := 1, sku := "A", cova_sku := some "CA", name := "ProdA",
       brand := none, category := none, subcategory := none }
     rfl rfl (by decide) (by decide) rfl rfl rfl rfl rfl⟩

/-! ### Claim C10 -/

/-- C10: when `add_line` increments an existing line, every line field
other than `counted_qty`, `captured_at`, `captured_by`, and — only when the
new notes are non-empty — `notes`, is unchanged: the stored barcode,
package id, unit, confidence, id, product id and SKU are retained, and the
request's values for those fields are discarded (in particular a scan via
the product's alternate Cova SKU merges into the line keyed by the primary
SKU, keeping the first-scanned barcode). -/
theorem c10_increment_frame (db : DB) (now : DateTime) (uid : Nat)
    (pid barcode : String) (qty : Int) (pkg : Option String) (conf : String)
    (notes : Option String) (newId : String) (cp : CountPass) (prod : Product)
    (e : CountLine)
    (hcp : db.passes.find? (fun p => p.id == pid) = some cp)
    (h1 : cp.status = "in_progress")
    (h2 : barcode ≠ "")
    (hprod : findProduct db barcode = some prod)
    (hcat : catMismatch cp prod = none)
    (hsub : subMismatch cp prod = none)
    (hex : db.lines.find? (fun l => l.count_pass_id == pid && l.sku == prod.sku) =
      some e) :
    ∃ r, (addLine db now uid pid barcode qty pkg conf notes newId).resp =
        Except.ok r ∧
      r.incremented = true ∧
      r.line.id = e.id ∧
      r.line.count_pass_id = e.count_pass_id ∧
      r.line.product_id = e.product_id ∧
      r.line.sku = e.sku ∧
      r.line.barcode = e.barcode ∧
      r.line.package_id = e.package_id ∧
      r.line.unit = e.unit ∧
      r.line.confidence = e.confidence ∧
      r.line.counted_qty = e.counted_qty + qty ∧
      r.line.captured_at = now ∧
      r.line.captured_by_user_id = uid ∧
      (notes = none → r.line.notes = e.notes) ∧
      (∀ n, notes = some n → r.line.notes = some n) ∧
      (addLine db now uid pid barcode qty pkg conf notes newId).db.lines =
        updateFirstLine (fun l => l.count_pass_id == pid && l.sku == prod.sku)
          (incLine qty now uid notes) db.lines := by
  have h1n : ¬(cp.status ≠ "in_progress") := fun hk => hk h1
  refine ⟨{ line := incLine qty now uid notes e
            incremented := true
            previous_qty := some ((incLine qty now uid notes e).counted_qty - qty) },
    ?_, rfl, rfl, rfl, rfl, rfl, rfl, rfl, rfl, rfl, rfl, rfl, rfl, ?_, ?_, ?_⟩
  · unfold addLine
    simp only [hcp, if_neg h1n, if_neg h2, hprod, hcat, hsub, hex]
  · intro hn
    simp [incLine, hn]
  · intro n hn
    simp [incLine, hn]
  · unfold addLine
    simp only [hcp, if_neg h1n, if_neg h2, hprod, hcat, hsub, hex]

/-- Witness for C10 at `dbOpen`: scanning the alternate identifier `CA`
with a fresh package id and confidence merges into `lineL`, keeping the
originally stored barcode `A`, package `LOT-1`, unit and confidence. -/
theorem c10_witness :
    ∃ r, (addLine dbOpen ⟨0, 2⟩ 8 "P" "CA" 2 (some "LOT-9") "typed" none "L2").resp =
        Except.ok r ∧
      r.incremented = true ∧
      r.line.id = lineL.id ∧
      r.line.count_pass_id = lineL.count_pass_id ∧
      r.line.product_id = lineL.product_id ∧
      r.line.sku = lineL.sku ∧
      r.line.barcode = lineL.barcode ∧
      r.line.package_id = lineL.package_id ∧
      r.line.unit = lineL.unit ∧
      r.line.confidence = lineL.confidence ∧
      r.line.counted_qty = lineL.counted_qty + 2 ∧
      r.line.captured_at = ⟨0, 2⟩ ∧
      r.line.captured_by_user_id = 8 ∧
      ((none : Option String) = none → r.line.notes = lineL.notes) ∧
      (∀ n, (none : Option String) = some n → r.line.notes = some n) ∧
      (addLine dbOpen ⟨0, 2⟩ 8 "P" "CA" 2 (some "LOT-9") "typed" none "L2").db.lines =
        updateFirstLine (fun l => l.count_pass_id == "P" && l.sku == "A")
          (incLine 2 ⟨0, 2⟩ 8 none) dbOpen.lines :=
  c10_increment_frame dbOpen ⟨0, 2⟩ 8 "P" "CA" 2 (some "LOT-9") "typed" none "L2"
    { id := "P", session_id := "S", location_id := 1, category := none,
      subcategory := none, started_at := ⟨0, 0⟩, submitted_at := none,
      status := "in_progress" }
    { id := 1, sku := "A", cova_sku := some "CA", name := "ProdA",
      brand := none, category := none, subcategory := none }
    lineL rfl rfl (by decide) rfl rfl rfl rfl

/-! ### Claim C4: sync lemmas -/

/-- Every movement candidate built from a fetched sale belongs to the sync
store, carries source `cova_sync`, and occurred on a day inside the sync
date range. -/
theorem saleToMovement_props {products : List Product} {store_id : Nat}
    {cova_sales : List Sale} {ids : List String} {from_date to_date : Int}
    {sale : Sale} {m : Movement}
    (hs : sale ∈ fetchSales cova_sales ids from_date to_date)
    (hm : saleToMovement products store_id sale = some m) :
    m.store_id = store_id ∧ m.source = "cova_sync" ∧
    from_date ≤ m.occurred_at.day ∧ m.occurred_at.day ≤ to_date := by
  unfold fetchSales at hs
  rw [mem_stableSortBy] at hs
  have hdate := (List.mem_filter.mp hs).2
  simp only [Bool.and_eq_true, decide_eq_true_eq] at hdate
  unfold saleToMovement at hm
  cases hsku : sale.product_sku with
  | none =>
    simp only [hsku] at hm
    exact Option.noConfusion hm
  | some sku =>
    simp only [hsku] at hm
    by_cases hempty : sku = ""
    · rw [if_pos hempty] at hm; cases hm
    · rw [if_neg hempty] at hm
      cases hfind : products.find? (fun p => p.sku == sku || p.cova_sku == some sku) with
      | none =>
        simp only [hfind] at hm
        exact Option.noConfusion hm
      | some product =>
        simp only [hfind] at hm
        injection hm with hm
        rw [← hm]
        exact ⟨rfl, rfl, hdate.1.1, hdate.1.2⟩

/-- The sync loop without `forceResync`, starting from a state containing
no movement matching any candidate's key, appends exactly the resolvable
candidates (whose keys are pairwise distinct). -/
theorem syncFold_clean {products : List Product} {store_id : Nat} :
    ∀ (sales : List Sale) (st : List Movement) (c sk : Nat),
    (∀ s ∈ sales, ∀ mm, saleToMovement products store_id s = some mm →
      st.find? (movementKeyMatch store_id mm) = none) →
    ((sales.filterMap (saleToMovement products store_id)).Pairwise
      (fun m n => ¬(m.sku = n.sku ∧ m.source_ref = n.source_ref))) →
    (∀ s ∈ sales, ∀ mm, saleToMovement products store_id s = some mm →
      mm.store_id = store_id) →
    (sales.foldl (syncStep products store_id false) (st, c, sk)).1 =
      st ++ sales.filterMap (saleToMovement products store_id)
  | [], st, c, sk, _, _, _ => by simp
  | s :: ss, st, c, sk, hfind, hpw, hstore => by
    rw [List.foldl_cons]
    cases hm : saleToMovement products store_id s with
    | none =>
      show (ss.foldl (syncStep products store_id false)
        (syncStep products store_id false (st, c, sk) s)).1 = _
      rw [show syncStep products store_id false (st, c, sk) s = (st, c, sk + 1) from by
        unfold syncStep; simp only [hm]]
      rw [List.filterMap_cons_none hm]
      exact syncFold_clean ss st c (sk + 1)
        (fun t ht => hfind t (List.mem_cons_of_mem s ht))
        (by rwa [List.filterMap_cons_none hm] at hpw)
        (fun t ht => hstore t (List.mem_cons_of_mem s ht))
    | some m =>
      rw [show syncStep products store_id false (st, c, sk) s =
          (st ++ [m], c + 1, sk) from by
        unfold syncStep
        simp only [hm]
        rw [hfind s (List.mem_cons_self s ss) m hm]
        simp]
      rw [List.filterMap_cons_some hm] at hpw ⊢
      rw [List.pairwise_cons] at hpw
      have hres := syncFold_clean ss (st ++ [m]) (c + 1) sk
        (by
          intro t ht mm hmm
          rw [List.find?_append, hfind t (List.mem_cons_of_mem s ht) mm hmm]
          rw [Option.none_or]
          rw [List.find?_eq_none]
          intro e2 he
          rw [List.mem_singleton] at he
          subst he
          have hkey := hpw.1 mm (List.mem_filterMap.mpr ⟨t, ht, hmm⟩)
          unfold movementKeyMatch
          simp only [Bool.and_eq_true, beq_iff_eq]
          intro hcon
          exact hkey ⟨hcon.1.2, hcon.2⟩)
        hpw.2
        (fun t ht => hstore t (List.mem_cons_of_mem s ht))
      rw [hres, List.append_assoc]
      rfl

/-- The sync loop without `forceResync`, when every resolvable candidate's
key already exists in the state, changes nothing and creates nothing. -/
theorem syncFold_allExist {products : List Product} {store_id : Nat} :
    ∀ (sales : List Sale) (st : List Movement) (c sk : Nat),
    (∀ s ∈ sales, ∀ mm, saleToMovement products store_id s = some mm →
      (st.find? (movementKeyMatch store_id mm)).isSome = true) →
    sales.foldl (syncStep products store_id false) (st, c, sk) =
      (st, c, sk + sales.length)
  | [], st, c, sk, _ => by simp
  | s :: ss, st, c, sk, hall => by
    rw [List.foldl_cons]
    cases hm : saleToMovement products store_id s with
    | none =>
      rw [show syncStep products store_id false (st, c, sk) s = (st, c, sk + 1) from by
        unfold syncStep; simp only [hm]]
      rw [syncFold_allExist ss st c (sk + 1)
        (fun t ht => hall t (List.mem_cons_of_mem s ht))]
      simp only [List.length_cons]
      rw [Nat.add_assoc, Nat.add_comm 1 ss.length]
    | some m =>
      rw [show syncStep products store_id false (st, c, sk) s = (st, c, sk + 1) from by
        unfold syncStep
        simp only [hm]
        rw [hall s (List.mem_cons_self s ss) m hm]
        simp]
      rw [syncFold_allExist ss st c (sk + 1)
        (fun t ht => hall t (List.mem_cons_of_mem s ht))]
      simp only [List.length_cons]
      rw [Nat.add_assoc, Nat.add_comm 1 ss.length]

/-- The sync loop with `forceResync` inserts every resolvable candidate
unconditionally. -/
theorem syncFold_force {products : List Product} {store_id : Nat} :
    ∀ (sales : List Sale) (st : List Movement) (c sk : Nat),
    (sales.foldl (syncStep products store_id true) (st, c, sk)).1 =
      st ++ sales.filterMap (saleToMovement products store_id)
  | [], st, c, sk => by simp
  | s :: ss, st, c, sk => by
    rw [List.foldl_cons]
    cases hm : saleToMovement products store_id s with
    | none =>
      rw [show syncStep products store_id true (st, c, sk) s = (st, c, sk + 1) from by
        unfold syncStep; simp only [hm]]
      rw [List.filterMap_cons_none hm]
      exact syncFold_force ss st c (sk + 1)
    | some m =>
      rw [show syncStep products store_id true (st, c, sk) s =
          (st ++ [m], c + 1, sk) from by
        unfold syncStep
        simp only [hm]
        simp]
      rw [List.filterMap_cons_some hm, syncFold_force ss (st ++ [m]) (c + 1) sk,
        List.append_assoc]
      rfl

theorem syncSales_noforce_unfold (products : List Product) (cova_sales : List Sale)
    (store_id : Nat) (from_date to_date : Int) (movements : List Movement) :
    syncSalesToMovements products cova_sales store_id from_date to_date false
      movements =
      (((fetchSales cova_sales (getCovaStoreIds store_id) from_date to_date).foldl
          (syncStep products store_id false) (movements, 0, 0)).1,
       { sales_found := (fetchSales cova_sales (getCovaStoreIds store_id)
           from_date to_date).length
         movements_created := ((fetchSales cova_sales (getCovaStoreIds store_id)
           from_date to_date).foldl
           (syncStep products store_id false) (movements, 0, 0)).2.1
         movements_skipped := ((fetchSales cova_sales (getCovaStoreIds store_id)
           from_date to_date).foldl
           (syncStep products store_id false) (movements, 0, 0)).2.2
         movements_deleted := 0 }) := by
  unfold syncSalesToMovements
  simp

theorem syncSales_force_state (products : List Product) (cova_sales : List Sale)
    (store_id : Nat) (from_date to_date : Int) (movements : List Movement) :
    (syncSalesToMovements products cova_sales store_id from_date to_date true
      movements).1 =
      ((fetchSales cova_sales (getCovaStoreIds store_id) from_date to_date).foldl
        (syncStep products store_id true)
        (movements.filter
          (fun m => !(forceDeleteMatch store_id from_date to_date m)), 0, 0)).1 := by
  unfold syncSalesToMovements
  simp

/-- C4: re-running the sales sync over identical input without
`forceResync` creates zero additional movements — every candidate whose
(store, sku, source_ref) already exists is skipped — and leaves the
movement table unchanged; re-running with `forceResync = true` deletes the
previously synced movements for the store, date range and `cova_sync`
source and recreates them, reproducing the same final movement table.
Hypotheses: the starting table holds no movements of the sync store, and
the resolvable candidates carry pairwise distinct (sku, source_ref) keys
(the `transactionId:lineNumber` natural key). -/
theorem c4_sync_dedup_and_force (products : List Product) (cova_sales : List Sale)
    (store_id : Nat) (from_date to_date : Int) (s0 : List Movement)
    (h0 : ∀ m ∈ s0, m.store_id ≠ store_id)
    (hpw : ((fetchSales cova_sales (getCovaStoreIds store_id) from_date
      to_date).filterMap (saleToMovement products store_id)).Pairwise
      (fun m n => ¬(m.sku = n.sku ∧ m.source_ref = n.source_ref))) :
    (syncSalesToMovements products cova_sales store_id from_date to_date false
      (syncSalesToMovements products cova_sales store_id from_date to_date false
        s0).1).2.movements_created = 0 ∧
    (syncSalesToMovements products cova_sales store_id from_date to_date false
      (syncSalesToMovements products cova_sales store_id from_date to_date false
        s0).1).1 =
      (syncSalesToMovements products cova_sales store_id from_date to_date false
        s0).1 ∧
    (syncSalesToMovements products cova_sales store_id from_date to_date true
      (syncSalesToMovements products cova_sales store_id from_date to_date false
        s0).1).1 =
      (syncSalesToMovements products cova_sales store_id from_date to_date false
        s0).1 := by
  have hstore : ∀ s ∈ fetchSales cova_sales (getCovaStoreIds store_id) from_date
      to_date, ∀ mm, saleToMovement products store_id s = some mm →
      mm.store_id = store_id :=
    fun s hs mm hmm => (saleToMovement_props hs hmm).1
  have hstate1 : (syncSalesToMovements products cova_sales store_id from_date
      to_date false s0).1 =
      s0 ++ (fetchSales cova_sales (getCovaStoreIds store_id) from_date
        to_date).filterMap (saleToMovement products store_id) := by
    rw [syncSales_noforce_unfold]
    exact syncFold_clean _ s0 0 0
      (by
        intro s hs mm hmm
        rw [List.find?_eq_none]
        intro e he
        unfold movementKeyMatch
        simp only [Bool.and_eq_true, beq_iff_eq]
        intro hcon
        exact h0 e he hcon.1.1)
      hpw hstore
  have hall : ∀ s ∈ fetchSales cova_sales (getCovaStoreIds store_id) from_date
      to_date, ∀ mm, saleToMovement products store_id s = some mm →
      (((syncSalesToMovements products cova_sales store_id from_date to_date
        false s0).1).find? (movementKeyMatch store_id mm)).isSome = true := by
    intro s hs mm hmm
    rw [hstate1, List.find?_isSome]
    refine ⟨mm, List.mem_append_right _ (List.mem_filterMap.mpr ⟨s, hs, hmm⟩), ?_⟩
    unfold movementKeyMatch
    simp [hstore s hs mm hmm]
  have hrun2 := syncFold_allExist
    (fetchSales cova_sales (getCovaStoreIds store_id) from_date to_date)
    ((syncSalesToMovements products cova_sales store_id from_date to_date false
      s0).1) 0 0 hall
  refine ⟨?_, ?_, ?_⟩
  · rw [syncSales_noforce_unfold]
    simp only [hrun2]
  · conv =>
      lhs
      rw [syncSales_noforce_unfold]
    simp only [hrun2]
  · rw [syncSales_force_state, hstate1]
    have hbase : (s0 ++ (fetchSales cova_sales (getCovaStoreIds store_id)
        from_date to_date).filterMap (saleToMovement products store_id)).filter
        (fun m => !(forceDeleteMatch store_id from_date to_date m)) = s0 := by
      rw [List.filter_append]
      rw [List.filter_eq_self.mpr (by
        intro m hm
        have := h0 m hm
        unfold forceDeleteMatch
        simp only [Bool.not_eq_true', Bool.and_eq_false_iff]
        left; left; left
        exact beq_eq_false_iff_ne.mpr this)]
      rw [List.filter_eq_nil_iff.mpr (by
        intro m hm
        obtain ⟨s, hs, hmm⟩ := List.mem_filterMap.mp hm
        have hp := saleToMovement_props hs hmm
        unfold forceDeleteMatch
        simp [hp.1, hp.2.1, hp.2.2.1, hp.2.2.2])]
      simp
    rw [hbase, syncFold_force]

/-- Two external sales at the Cova store `kingsway` (IKE store 1): one for
the catalogued SKU `A`, one for the unknown SKU `ZZZ`. -/
def salesEx : List Sale :=
  [{ transaction_id := "T1", line_number := 1, store_id := "kingsway",
     transaction_date := 0, transaction_time := some 10,
     product_sku := some "A", quantity := 3 },
   { transaction_id := "T2", line_number := 1, store_id := "kingsway",
     transaction_date := 0, transaction_time := some 11,
     product_sku := some "ZZZ", quantity := 2 }]

/-- The catalog for the sync witness. -/
def productsEx : List Product :=
  [{ id := 1, sku := "A", cova_sku := some "CA", name := "ProdA",
     brand := none, category := none, subcategory := none }]

/-- Witness for C4 at `productsEx`/`salesEx`, store 1, date range 0..1, from
an empty movement table. -/
theorem c4_witness :
    (∀ m ∈ ([] : List Movement), m.store_id ≠ 1) ∧
    ((fetchSales salesEx (getCovaStoreIds 1) 0 1).filterMap
      (saleToMovement productsEx 1)).Pairwise
      (fun m n => ¬(m.sku = n.sku ∧ m.source_ref = n.source_ref)) ∧
    ((syncSalesToMovements productsEx salesEx 1 0 1 false
        (syncSalesToMovements productsEx salesEx 1 0 1 false []).1).2.movements_created
        = 0 ∧
     (syncSalesToMovements productsEx salesEx 1 0 1 false
        (syncSalesToMovements productsEx salesEx 1 0 1 false []).1).1 =
       (syncSalesToMovements productsEx salesEx 1 0 1 false []).1 ∧
     (syncSalesToMovements productsEx salesEx 1 0 1 true
        (syncSalesToMovements productsEx salesEx 1 0 1 false []).1).1 =
       (syncSalesToMovements productsEx salesEx 1 0 1 false []).1) :=
  ⟨by simp, by decide,
   c4_sync_dedup_and_force productsEx salesEx 1 0 1 [] (by simp) (by decide)⟩

end IKE